import Mathlib

/-!
Shallow embedding of the execution engine of the `bfi` Brainfuck interpreter
(`src/interpreter.rs`), together with theorems checking the natural-language
specification against it.

Modelling conventions:
* `Wrapping<u8>` cells are `Nat` values kept below 256 by reducing every
  written value modulo 256 (`w8add`, `w8sub`, ...).
* `isize` / `usize` are `Int` / `Nat` with explicit two's-complement wrapping
  (`wrapIsize`, `usizeOfIsize`) and an explicit `checkedAdd` mirroring
  `isize::checked_add`.  The `memory_pointer += amount` update is modelled
  with the two's-complement wrap of the release build.
* The two mpsc channels are modelled inside the machine state: `inputs` is
  the queue of pending input bytes plus a flag `inputClosed` (the sender was
  dropped), `outputs` is the ordered list of messages sent on the output
  channel (`Ok byte` or `Err error`, exactly as the Rust code sends
  `Result<Wrapping<u8>, RunTimeError>` values), plus `outputClosed` (the
  receiver was dropped).
* A Rust panic (out-of-bounds `Vec` indexing, `.unwrap()` on a failed
  `send`/`recv`) is the explicit outcome `RunResult.panicked`; a `recv()`
  that would block forever is `RunResult.blocked`.
* the `u64` iteration counter wraps via `wrapU64` on every `+= 1`
  (release-build semantics), so a budget of `u64::MAX` is never exceeded
  by the counter and the budget check can never fire at that budget.
* `run_body`'s recursion through `Loop` bodies is made total with a `fuel`
  parameter; `RunResult.fuelOut` is the embedding artifact for running out
  of fuel and corresponds to no behaviour of the Rust code.
-/

namespace Bfi

/-- `enum RunTimeError` from src/interpreter.rs lines 13-18.  The Rust enum
has exactly these three variants. -/
inductive RunTimeError where
  | OutOfBoundsLeft
  | OutOfBoundsRight
  | MaxIterationsExceeded
deriving DecidableEq, Repr

/-- `bfc_ir::AstNode`, the instruction type consumed by the engine (data
contract from the external front-end, as described by the spec §3):
`amount` of `Increment`/`Set` is a `Wrapping<i8>`, offsets and
`PointerIncrement` amounts are `isize`, `MultiplyMove` carries an ordered
sequence of `(offset, factor)` pairs. -/
inductive AstNode where
  | Increment (amount : Int) (offset : Int)
  | PointerIncrement (amount : Int)
  | Read
  | Write
  | Loop (body : List AstNode)
  | Set (amount : Int) (offset : Int)
  | MultiplyMove (changes : List (Int × Int))
deriving Repr

instance : DecidableEq (Except RunTimeError Nat) := fun a b =>
  match a, b with
  | .ok x, .ok y => decidable_of_iff (x = y) (by simp)
  | .error x, .error y => decidable_of_iff (x = y) (by simp)
  | .ok _, .error _ => isFalse (by simp)
  | .error _, .ok _ => isFalse (by simp)

/-- The run state of `InterpreterInner` (src/interpreter.rs lines 95-104)
together with the modelled channel state.  `iterations` and
`maxIterations` carry the `u64` counter and budget: values below 2^64,
with the counter update in `runStep` wrapping via `wrapU64` exactly as
the release-build `+=` does (so claims about the budget carry explicit
`< 2^64` side conditions instead of silently widening the counter). -/
structure MachineState where
  memory : List Nat
  memoryPointer : Int
  iterations : Nat
  maxIterations : Nat
  inputs : List Nat
  inputClosed : Bool
  outputs : List (Except RunTimeError Nat)
  outputClosed : Bool
deriving DecidableEq, Repr

/-- Outcome of `run_body` on a machine state. `ok`/`fault` are the
`Ok(())`/`Err(())` returns of the Rust function (for `fault` the error that
was sent down the output channel is recorded alongside); `panicked` is a
Rust panic; `blocked` is a `recv()` that blocks forever; `fuelOut` is the
fuel artifact of the embedding. -/
inductive RunResult where
  | ok (s : MachineState)
  | fault (e : RunTimeError) (s : MachineState)
  | panicked (s : MachineState)
  | blocked (s : MachineState)
  | fuelOut
deriving DecidableEq, Repr

def RunResult.stateOf : RunResult → Option MachineState
  | .ok s => some s
  | .fault _ s => some s
  | .panicked s => some s
  | .blocked s => some s
  | .fuelOut => none

def RunResult.errOf : RunResult → Option RunTimeError
  | .fault e _ => some e
  | _ => none

def RunResult.isOk : RunResult → Bool
  | .ok _ => true
  | _ => false

def RunResult.isFault : RunResult → Bool
  | .fault _ _ => true
  | _ => false

def RunResult.isPanicked : RunResult → Bool
  | .panicked _ => true
  | _ => false

/-- Bounds of `isize` (64-bit). -/
def isizeMin : Int := -(2 ^ 63)

def isizeMax : Int := 2 ^ 63 - 1

/-- `isize::checked_add`: `some` of the mathematical sum when it is
representable, `none` on overflow in either direction. -/
def checkedAdd (a b : Int) : Option Int :=
  if isizeMin ≤ a + b ∧ a + b ≤ isizeMax then some (a + b) else none

/-- Two's-complement wrap of an integer into the `isize` range (the
behaviour of `+=` on `isize` in a release build). -/
def wrapIsize (x : Int) : Int :=
  (x + 2 ^ 63) % 2 ^ 64 - 2 ^ 63

/-- The cast `isize as usize` (two's complement reinterpretation). -/
def usizeOfIsize (x : Int) : Nat :=
  (x % 2 ^ 64).toNat

/-- Wrap of a `u64` value (the behaviour of `+=` on `u64` in a release
build: `self.iterations += 1` wraps to 0 at 2^64). -/
def wrapU64 (n : Nat) : Nat := n % 2 ^ 64

/-- `Wrapping<u8>` addition. -/
def w8add (a b : Nat) : Nat := (a + b) % 256

/-- `Wrapping<u8>` subtraction. -/
def w8sub (a b : Nat) : Nat := (a + (256 - b % 256)) % 256

/-- `Wrapping<u8>` multiplication. -/
def w8mul (a b : Nat) : Nat := (a * b) % 256

/-- The cell update performed by the `Increment` arm (src/interpreter.rs
lines 155-159): `match amount.0.cmp(&0)` subtracts or adds
`amount.0.unsigned_abs()` on the `Wrapping<u8>` cell. -/
def incCell (v : Nat) (amount : Int) : Nat :=
  if amount < 0 then w8sub v amount.natAbs
  else if amount = 0 then v
  else w8add v amount.natAbs

/-- Conversion of a `Wrapping<i8>` to a `Wrapping<u8>` as written in the
`Set` and `MultiplyMove` arms (src/interpreter.rs lines 217-221 and
256-260): `match x.cmp(&0)` yields `-Wrapping(x.unsigned_abs())`, `0`, or
`Wrapping(x.unsigned_abs())`. -/
def i8ToByte (a : Int) : Nat :=
  if a < 0 then w8sub 0 a.natAbs
  else if a = 0 then 0
  else a.natAbs

/-- The effective-address computation shared by the `Increment`, `Set` and
`MultiplyMove` arms (src/interpreter.rs lines 129-153, 190-214, 228-253):
`memory_pointer.checked_add(offset)` (sending `OutOfBoundsRight` on
overflow), then `match index.cmp(&0)` (sending `OutOfBoundsLeft` when
negative, casting to `usize` otherwise), then the `index >= memory.len()`
check (sending `OutOfBoundsRight`). -/
def effAddr (mp offset : Int) (len : Nat) : Except RunTimeError Nat :=
  match checkedAdd mp offset with
  | none => .error .OutOfBoundsRight
  | some index =>
    if index < 0 then .error .OutOfBoundsLeft
    else
      let i := index.toNat
      if len ≤ i then .error .OutOfBoundsRight else .ok i

/-- `self.outputs.send(Err(e)).unwrap(); return Err(())` — every fault path
of `run_body` sends the error down the output channel (panicking if the
receiver is gone) and then returns `Err(())`. -/
def faultWith (s : MachineState) (e : RunTimeError) : RunResult :=
  if s.outputClosed then .panicked s
  else .fault e { s with outputs := s.outputs ++ [.error e] }

/-- The `Increment` arm (src/interpreter.rs lines 128-160). -/
def stepIncrement (amount offset : Int) (s : MachineState) : RunResult :=
  match effAddr s.memoryPointer offset s.memory.length with
  | .error e => faultWith s e
  | .ok index =>
    .ok { s with memory := s.memory.set index (incCell (s.memory.getD index 0) amount) }

/-- The `PointerIncrement` arm (src/interpreter.rs lines 161-175):
`memory_pointer += amount`, fault `OutOfBoundsLeft` if the new pointer is
negative, fault `OutOfBoundsRight` if `unsigned_abs() > memory.len()`. -/
def stepPointerIncrement (amount : Int) (s : MachineState) : RunResult :=
  let s1 := { s with memoryPointer := wrapIsize (s.memoryPointer + amount) }
  if s1.memoryPointer < 0 then faultWith s1 .OutOfBoundsLeft
  else if s1.memory.length < s1.memoryPointer.natAbs then faultWith s1 .OutOfBoundsRight
  else .ok s1

/-- The `Read` arm (src/interpreter.rs lines 176-178):
`self.memory[self.memory_pointer as usize] = self.inputs.recv().unwrap()`.
The right-hand side is evaluated first: `recv()` returns a queued byte even
if the sender is gone, returns `Err` (so `unwrap` panics) when the queue is
empty and the sender is gone, and blocks forever when the queue is empty
and the sender is alive.  Then the unchecked indexing panics when
`memory_pointer as usize` is not below `memory.len()`. -/
def stepRead (s : MachineState) : RunResult :=
  match s.inputs with
  | [] => if s.inputClosed then .panicked s else .blocked s
  | b :: rest =>
    let s1 := { s with inputs := rest }
    let index := usizeOfIsize s1.memoryPointer
    if index < s1.memory.length then .ok { s1 with memory := s1.memory.set index b }
    else .panicked s1

/-- The `Write` arm (src/interpreter.rs lines 179-183):
`self.outputs.send(Ok(self.memory[self.memory_pointer as usize])).unwrap()`.
The unchecked indexing panics when out of range; the `unwrap` panics when
the output receiver is gone. -/
def stepWrite (s : MachineState) : RunResult :=
  let index := usizeOfIsize s.memoryPointer
  if index < s.memory.length then
    if s.outputClosed then .panicked s
    else .ok { s with outputs := s.outputs ++ [.ok (s.memory.getD index 0)] }
  else .panicked s

/-- The `Set` arm (src/interpreter.rs lines 189-222). -/
def stepSet (amount offset : Int) (s : MachineState) : RunResult :=
  match effAddr s.memoryPointer offset s.memory.length with
  | .error e => faultWith s e
  | .ok index => .ok { s with memory := s.memory.set index (i8ToByte amount) }

/-- The `for (offset, factor) in changes.iter()` loop of the `MultiplyMove`
arm (src/interpreter.rs lines 227-261): for each pair, the effective
address is computed with the same rules as `Increment`, and
`memory[index] += current * factor` on `Wrapping<u8>` values. -/
def mmApply (current : Nat) : List (Int × Int) → MachineState → RunResult
  | [], s => .ok s
  | (offset, factor) :: rest, s =>
    match effAddr s.memoryPointer offset s.memory.length with
    | .error e => faultWith s e
    | .ok index =>
      mmApply current rest
        { s with memory :=
            s.memory.set index (w8add (s.memory.getD index 0) (w8mul current (i8ToByte factor))) }

/-- The `MultiplyMove` arm (src/interpreter.rs lines 223-265): read the
current cell once (unchecked indexing), do nothing when it is zero,
otherwise apply all `(offset, factor)` pairs in order and finally zero the
cell at `memory_pointer as usize`. -/
def stepMultiplyMove (changes : List (Int × Int)) (s : MachineState) : RunResult :=
  let index := usizeOfIsize s.memoryPointer
  if index < s.memory.length then
    let current := s.memory.getD index 0
    if current = 0 then .ok s
    else
      match mmApply current changes s with
      | .ok s' => .ok { s' with memory := s'.memory.set (usizeOfIsize s'.memoryPointer) 0 }
      | r => r
  else .panicked s

mutual

/-- One iteration of the `for instruction in body` loop of
`InterpreterInner::run_body` (src/interpreter.rs lines 118-266): bump the
iteration counter (`self.iterations += 1` on a `u64`, which wraps in a
release build — hence `wrapU64`), fault `MaxIterationsExceeded` when it
now exceeds the budget — before performing any effect — and otherwise
dispatch on the instruction.  Note the wrap: with
`max_iterations = u64::MAX` the check can never fire. -/
def runStep (fuel : Nat) (i : AstNode) (s : MachineState) : RunResult :=
  let s1 := { s with iterations := wrapU64 (s.iterations + 1) }
  if s1.maxIterations < s1.iterations then faultWith s1 .MaxIterationsExceeded
  else
    match i with
    | .Increment amount offset => stepIncrement amount offset s1
    | .PointerIncrement amount => stepPointerIncrement amount s1
    | .Read => stepRead s1
    | .Write => stepWrite s1
    | .Loop lbody => runLoop fuel lbody s1
    | .Set amount offset => stepSet amount offset s1
    | .MultiplyMove changes => stepMultiplyMove changes s1
termination_by (fuel, 1)

/-- `InterpreterInner::run_body` (src/interpreter.rs lines 117-270): walk
the instruction slice in order; any `Err(())` (or panic, or
forever-blocked `recv`) stops the walk. -/
def runBody (fuel : Nat) (body : List AstNode) (s : MachineState) : RunResult :=
  if _hf : fuel = 0 then .fuelOut
  else
    match body with
    | [] => .ok s
    | i :: rest =>
      match runStep (fuel - 1) i s with
      | .ok s2 => runBody (fuel - 1) rest s2
      | r2 => r2
termination_by (fuel, 2)

/-- The `while self.memory[self.memory_pointer as usize] != Wrapping(0)`
loop of the `Loop` arm (src/interpreter.rs lines 184-188): re-read the
cell at the current cursor (unchecked indexing) before every pass, run the
body in full, propagate any `Err(())`. -/
def runLoop (fuel : Nat) (lbody : List AstNode) (s : MachineState) : RunResult :=
  if _hf : fuel = 0 then .fuelOut
  else
    if usizeOfIsize s.memoryPointer < s.memory.length then
      if s.memory.getD (usizeOfIsize s.memoryPointer) 0 = 0 then .ok s
      else
        match runBody (fuel - 1) lbody s with
        | .ok s' => runLoop (fuel - 1) lbody s'
        | r => r
    else .panicked s
termination_by (fuel, 0)

end

/-- The machine state built by `Interpreter::create` plus the input bytes
pre-loaded by `Interpreter::run` (src/interpreter.rs lines 44-86): a tape
of 30000 zeroed cells, cursor 0, counter 0, and both channels open (both
the input sender and the output receiver stay alive in the caller for the
whole blocking run). -/
def initState (maxIter : Nat) (input : List Nat) : MachineState :=
  { memory := List.replicate 30000 0
    memoryPointer := 0
    iterations := 0
    maxIterations := maxIter
    inputs := input
    inputClosed := false
    outputs := []
    outputClosed := false }

/-- Result of the batch entry point `Interpreter::run`. -/
inductive BatchResult where
  | ok (out : List Nat)
  | fault (out : List Nat) (e : RunTimeError)
  | hangs
  | panicked
  | fuelOut
deriving DecidableEq, Repr

/-- The output-collection loop of `Interpreter::run` (src/interpreter.rs
lines 57-65): push each `Ok` byte, return the collected bytes with the
error at the first `Err`. -/
def collectLoop : List (Except RunTimeError Nat) → List Nat → BatchResult
  | [], acc => .ok acc
  | .ok b :: rest, acc => collectLoop rest (acc ++ [b])
  | .error e :: _, acc => .fault acc e

/-- The batch entry point `Interpreter::run` (src/interpreter.rs lines
44-66): pre-load the input, run the machine to its end on the calling
thread, then drain the output channel. -/
def runBF (fuel : Nat) (prog : List AstNode) (maxIter : Nat) (input : List Nat) : BatchResult :=
  match runBody fuel prog (initState maxIter input) with
  | .ok s => collectLoop s.outputs []
  | .fault _ s => collectLoop s.outputs []
  | .panicked _ => .panicked
  | .blocked _ => .hangs
  | .fuelOut => .fuelOut

/-- The `Ok` payloads of a message list, in order. -/
def msgsBytes : List (Except RunTimeError Nat) → List Nat
  | [] => []
  | .ok b :: rest => b :: msgsBytes rest
  | .error _ :: rest => msgsBytes rest

/-- A message list containing no `Err`. -/
def NoErrOut (t : List (Except RunTimeError Nat)) : Prop :=
  ∀ m ∈ t, ∃ b, m = Except.ok b

/-- Modelled from the spec (§4.1 `MultiplyMove`): the unrolled form
"if cell≠0: for each (offset,factor) in order, target += cell*factor;
cell = 0", with the target address computed under the same bounds/overflow
rules as `Increment` and the addition taken modulo 256 on the signed
product.  This is the specification-side definition that the code's
`MultiplyMove` arm is compared against. -/
def specMMApply (current : Nat) : List (Int × Int) → MachineState → RunResult
  | [], s => .ok s
  | (offset, factor) :: rest, s =>
    match effAddr s.memoryPointer offset s.memory.length with
    | .error e => faultWith s e
    | .ok index =>
      specMMApply current rest
        { s with memory :=
            (s.memory.set index ((((s.memory.getD index 0 : Int) + (current : Int) * factor) % 256).toNat)) }

/-- Modelled from the spec (§4.1 `MultiplyMove`), wrapper: read the source
cell once, do nothing if it is zero, otherwise apply all pairs in order
and then set the source cell to zero. -/
def specMultiplyMove (changes : List (Int × Int)) (s : MachineState) : RunResult :=
  let index := usizeOfIsize s.memoryPointer
  if index < s.memory.length then
    let current := s.memory.getD index 0
    if current = 0 then .ok s
    else
      match specMMApply current changes s with
      | .ok s' => .ok { s' with memory := s'.memory.set (usizeOfIsize s'.memoryPointer) 0 }
      | r => r
  else .panicked s

/-- The cursor bounds actually maintained by the engine (note `≤`, not `<`:
`PointerIncrement` lets the cursor reach the tape length). -/
def goodMP (s : MachineState) : Prop :=
  0 ≤ s.memoryPointer ∧ s.memoryPointer ≤ (s.memory.length : Int)

structure Ev (s : MachineState) (r : RunResult) : Prop where
  frame : ∀ s', r.stateOf = some s' →
    s'.maxIterations = s.maxIterations ∧ s'.memory.length = s.memory.length ∧
    s'.inputClosed = s.inputClosed ∧ s'.outputClosed = s.outputClosed
  mpOk : ∀ s', r = .ok s' → goodMP s → goodMP s'
  iterOk : s.iterations ≤ s.maxIterations → s.maxIterations < 2 ^ 64 - 1 →
    ∀ s', r = .ok s' → s'.iterations ≤ s.maxIterations
  iterMax : s.iterations ≤ s.maxIterations → s.maxIterations < 2 ^ 64 - 1 →
    ∀ s', r = .fault .MaxIterationsExceeded s' → s'.iterations = s.maxIterations + 1
  outSafe : ∀ s', r = .ok s' ∨ r = .panicked s' ∨ r = .blocked s' →
    ∃ t, s'.outputs = s.outputs ++ t ∧ NoErrOut t
  outFault : ∀ e s', r = .fault e s' →
    ∃ t, s'.outputs = s.outputs ++ t ++ [Except.error e] ∧ NoErrOut t
  blockedNil : ∀ s', r = .blocked s' → s'.inputs = []

/-- Small demonstration state for `MultiplyMove` (tape given explicitly,
cursor 0, both conduits open). -/
def mmDemo (mem : List Nat) : MachineState :=
  { memory := mem
    memoryPointer := 0
    iterations := 0
    maxIterations := 10
    inputs := []
    inputClosed := false
    outputs := []
    outputClosed := false }

/-- Controlled unfolding: out of fuel. -/
@[simp] lemma wrapU64_eq_of_lt (n : Nat) (h : n < 2 ^ 64) : wrapU64 n = n := by
  unfold wrapU64
  omega

lemma wrapU64_le (n : Nat) : wrapU64 n ≤ n := Nat.mod_le _ _

lemma runBody_zero (body : List AstNode) (s : MachineState) :
    runBody 0 body s = .fuelOut := by
  rw [runBody.eq_def]
  rfl

/-- Controlled unfolding: an exhausted instruction slice returns `Ok(())`. -/
lemma runBody_nil (fuel : Nat) (s : MachineState) (h : fuel ≠ 0) :
    runBody fuel [] s = .ok s := by
  rw [runBody.eq_def, dif_neg h]

/-- Controlled unfolding: one pass of the `for instruction in body` loop. -/
lemma runBody_cons (fuel : Nat) (i : AstNode) (rest : List AstNode) (s : MachineState)
    (h : fuel ≠ 0) :
    runBody fuel (i :: rest) s =
      match runStep (fuel - 1) i s with
      | .ok s2 => runBody (fuel - 1) rest s2
      | r2 => r2 := by
  rw [runBody.eq_def, dif_neg h]

/-- Controlled unfolding: out of fuel. -/
lemma runLoop_zero (lbody : List AstNode) (s : MachineState) :
    runLoop 0 lbody s = .fuelOut := by
  rw [runLoop.eq_def]
  rfl

/-- Controlled unfolding: one condition check of the `while` loop. -/
lemma runLoop_step (fuel : Nat) (lbody : List AstNode) (s : MachineState) (h : fuel ≠ 0) :
    runLoop fuel lbody s =
      (if usizeOfIsize s.memoryPointer < s.memory.length then
        if s.memory.getD (usizeOfIsize s.memoryPointer) 0 = 0 then .ok s
        else
          match runBody (fuel - 1) lbody s with
          | .ok s' => runLoop (fuel - 1) lbody s'
          | r => r
      else .panicked s) := by
  rw [runLoop.eq_def, dif_neg h]

/-! Helper lemmas for evaluating the embedding symbolically (the 30000-cell
tape is never materialised). -/

lemma getD_replicate {n k a d : Nat} (h : k < n) :
    (List.replicate n a).getD k d = a := by
  simp [List.getD, h]

lemma getD_set_self {l : List Nat} {i b d : Nat} (h : i < l.length) :
    (l.set i b).getD i d = b := by
  simp [List.getD, List.getElem?_set, h]

lemma getD_set_other {l : List Nat} {i j b d : Nat} (h : i ≠ j) :
    (l.set i b).getD j d = l.getD j d := by
  simp [List.getD, List.getElem?_set, h]

lemma initState_memory (m : Nat) (i : List Nat) :
    (initState m i).memory = List.replicate 30000 0 := rfl

@[simp] lemma initState_memory_length (m : Nat) (i : List Nat) :
    (initState m i).memory.length = 30000 := by
  rw [initState_memory, List.length_replicate]

@[simp] lemma initState_memory_getD (m k d : Nat) (i : List Nat) (h : k < 30000) :
    (initState m i).memory.getD k d = 0 := by
  rw [initState_memory]
  exact getD_replicate h

@[simp] lemma initState_memoryPointer (m : Nat) (i : List Nat) :
    (initState m i).memoryPointer = 0 := rfl

@[simp] lemma initState_iterations (m : Nat) (i : List Nat) :
    (initState m i).iterations = 0 := rfl

@[simp] lemma initState_maxIterations (m : Nat) (i : List Nat) :
    (initState m i).maxIterations = m := rfl

@[simp] lemma initState_inputs (m : Nat) (i : List Nat) :
    (initState m i).inputs = i := rfl

@[simp] lemma initState_inputClosed (m : Nat) (i : List Nat) :
    (initState m i).inputClosed = false := rfl

@[simp] lemma initState_outputs (m : Nat) (i : List Nat) :
    (initState m i).outputs = [] := rfl

@[simp] lemma initState_outputClosed (m : Nat) (i : List Nat) :
    (initState m i).outputClosed = false := rfl

lemma wrapIsize_of_bounds {x : Int} (h1 : isizeMin ≤ x) (h2 : x ≤ isizeMax) :
    wrapIsize x = x := by
  unfold wrapIsize
  unfold isizeMin at h1
  unfold isizeMax at h2
  omega

lemma usizeOfIsize_of_nonneg {x : Int} (h1 : 0 ≤ x) (h2 : x ≤ isizeMax) :
    usizeOfIsize x = x.toNat := by
  unfold usizeOfIsize
  unfold isizeMax at h2
  omega

/-! Symbolic one-step lemmas: each branch of the dispatcher and of the
instruction arms, with the branch conditions as explicit hypotheses. -/

lemma runStep_budget (fuel : Nat) (i : AstNode) (s : MachineState)
    (h : s.maxIterations < wrapU64 (s.iterations + 1)) :
    runStep fuel i s = faultWith { s with iterations := wrapU64 (s.iterations + 1) }
      .MaxIterationsExceeded := by
  rw [runStep.eq_def]
  rw [if_pos (by simpa using h)]

lemma runStep_increment (fuel : Nat) (a o : Int) (s : MachineState)
    (h : wrapU64 (s.iterations + 1) ≤ s.maxIterations) :
    runStep fuel (.Increment a o) s =
      stepIncrement a o { s with iterations := wrapU64 (s.iterations + 1) } := by
  simp only [runStep]
  rw [if_neg (by simp; omega)]

lemma runStep_pointerIncrement (fuel : Nat) (a : Int) (s : MachineState)
    (h : wrapU64 (s.iterations + 1) ≤ s.maxIterations) :
    runStep fuel (.PointerIncrement a) s =
      stepPointerIncrement a { s with iterations := wrapU64 (s.iterations + 1) } := by
  simp only [runStep]
  rw [if_neg (by simp; omega)]

lemma runStep_read (fuel : Nat) (s : MachineState)
    (h : wrapU64 (s.iterations + 1) ≤ s.maxIterations) :
    runStep fuel .Read s = stepRead { s with iterations := wrapU64 (s.iterations + 1) } := by
  simp only [runStep]
  rw [if_neg (by simp; omega)]

lemma runStep_write (fuel : Nat) (s : MachineState)
    (h : wrapU64 (s.iterations + 1) ≤ s.maxIterations) :
    runStep fuel .Write s = stepWrite { s with iterations := wrapU64 (s.iterations + 1) } := by
  simp only [runStep]
  rw [if_neg (by simp; omega)]

lemma runStep_loop (fuel : Nat) (lbody : List AstNode) (s : MachineState)
    (h : wrapU64 (s.iterations + 1) ≤ s.maxIterations) :
    runStep fuel (.Loop lbody) s = runLoop fuel lbody { s with iterations := wrapU64 (s.iterations + 1) } := by
  simp only [runStep]
  rw [if_neg (by simp; omega)]

lemma runStep_set (fuel : Nat) (a o : Int) (s : MachineState)
    (h : wrapU64 (s.iterations + 1) ≤ s.maxIterations) :
    runStep fuel (.Set a o) s = stepSet a o { s with iterations := wrapU64 (s.iterations + 1) } := by
  simp only [runStep]
  rw [if_neg (by simp; omega)]

lemma runStep_multiplyMove (fuel : Nat) (changes : List (Int × Int)) (s : MachineState)
    (h : wrapU64 (s.iterations + 1) ≤ s.maxIterations) :
    runStep fuel (.MultiplyMove changes) s =
      stepMultiplyMove changes { s with iterations := wrapU64 (s.iterations + 1) } := by
  simp only [runStep]
  rw [if_neg (by simp; omega)]

lemma stepIncrement_fault (a o : Int) (s : MachineState) (e : RunTimeError)
    (h : effAddr s.memoryPointer o s.memory.length = .error e) :
    stepIncrement a o s = faultWith s e := by
  simp only [stepIncrement, h]

lemma stepIncrement_ok (a o : Int) (s : MachineState) (idx : Nat)
    (h : effAddr s.memoryPointer o s.memory.length = .ok idx) :
    stepIncrement a o s =
      .ok { s with memory := s.memory.set idx (incCell (s.memory.getD idx 0) a) } := by
  simp only [stepIncrement, h]

lemma stepSet_fault (a o : Int) (s : MachineState) (e : RunTimeError)
    (h : effAddr s.memoryPointer o s.memory.length = .error e) :
    stepSet a o s = faultWith s e := by
  simp only [stepSet, h]

lemma stepSet_ok (a o : Int) (s : MachineState) (idx : Nat)
    (h : effAddr s.memoryPointer o s.memory.length = .ok idx) :
    stepSet a o s = .ok { s with memory := s.memory.set idx (i8ToByte a) } := by
  simp only [stepSet, h]

lemma stepPointerIncrement_left (a : Int) (s : MachineState)
    (h : wrapIsize (s.memoryPointer + a) < 0) :
    stepPointerIncrement a s =
      faultWith { s with memoryPointer := wrapIsize (s.memoryPointer + a) } .OutOfBoundsLeft := by
  simp only [stepPointerIncrement]
  rw [if_pos (by simpa using h)]

lemma stepPointerIncrement_right (a : Int) (s : MachineState)
    (h0 : 0 ≤ wrapIsize (s.memoryPointer + a))
    (h : s.memory.length < (wrapIsize (s.memoryPointer + a)).natAbs) :
    stepPointerIncrement a s =
      faultWith { s with memoryPointer := wrapIsize (s.memoryPointer + a) } .OutOfBoundsRight := by
  simp only [stepPointerIncrement]
  rw [if_neg (by simp; omega), if_pos (by simpa using h)]

lemma stepPointerIncrement_ok (a : Int) (s : MachineState)
    (h0 : 0 ≤ wrapIsize (s.memoryPointer + a))
    (h : (wrapIsize (s.memoryPointer + a)).natAbs ≤ s.memory.length) :
    stepPointerIncrement a s =
      .ok { s with memoryPointer := wrapIsize (s.memoryPointer + a) } := by
  simp only [stepPointerIncrement]
  rw [if_neg (by simp; omega), if_neg (by simp; omega)]

lemma stepRead_empty_open (s : MachineState) (h1 : s.inputs = [])
    (h2 : s.inputClosed = false) :
    stepRead s = .blocked s := by
  simp only [stepRead, h1, h2]
  rfl

lemma stepRead_empty_closed (s : MachineState) (h1 : s.inputs = [])
    (h2 : s.inputClosed = true) :
    stepRead s = .panicked s := by
  simp only [stepRead, h1, h2]
  rfl

lemma stepRead_cons_ok (s : MachineState) (b : Nat) (rest : List Nat)
    (h1 : s.inputs = b :: rest)
    (h2 : usizeOfIsize s.memoryPointer < s.memory.length) :
    stepRead s = .ok { s with
      inputs := rest
      memory := s.memory.set (usizeOfIsize s.memoryPointer) b } := by
  simp only [stepRead, h1]
  rw [if_pos (by simpa using h2)]

lemma stepRead_cons_panic (s : MachineState) (b : Nat) (rest : List Nat)
    (h1 : s.inputs = b :: rest)
    (h2 : s.memory.length ≤ usizeOfIsize s.memoryPointer) :
    stepRead s = .panicked { s with inputs := rest } := by
  simp only [stepRead, h1]
  rw [if_neg (by simp; omega)]

lemma stepWrite_panic_oob (s : MachineState)
    (h : s.memory.length ≤ usizeOfIsize s.memoryPointer) :
    stepWrite s = .panicked s := by
  simp only [stepWrite]
  rw [if_neg (by simp; omega)]

lemma stepWrite_panic_closed (s : MachineState)
    (h1 : usizeOfIsize s.memoryPointer < s.memory.length)
    (h2 : s.outputClosed = true) :
    stepWrite s = .panicked s := by
  simp only [stepWrite, h2]
  rw [if_pos (by simpa using h1)]
  rfl

lemma stepWrite_ok (s : MachineState)
    (h1 : usizeOfIsize s.memoryPointer < s.memory.length)
    (h2 : s.outputClosed = false) :
    stepWrite s =
      .ok { s with outputs :=
        s.outputs ++ [.ok (s.memory.getD (usizeOfIsize s.memoryPointer) 0)] } := by
  simp only [stepWrite, h2]
  rw [if_pos (by simpa using h1)]
  rfl

lemma stepMultiplyMove_panic (changes : List (Int × Int)) (s : MachineState)
    (h : s.memory.length ≤ usizeOfIsize s.memoryPointer) :
    stepMultiplyMove changes s = .panicked s := by
  simp only [stepMultiplyMove]
  rw [if_neg (by simp; omega)]

lemma stepMultiplyMove_zero (changes : List (Int × Int)) (s : MachineState)
    (h1 : usizeOfIsize s.memoryPointer < s.memory.length)
    (h2 : s.memory.getD (usizeOfIsize s.memoryPointer) 0 = 0) :
    stepMultiplyMove changes s = .ok s := by
  simp only [stepMultiplyMove]
  rw [if_pos (by simpa using h1), if_pos (by simpa using h2)]

lemma stepMultiplyMove_go (changes : List (Int × Int)) (s : MachineState)
    (h1 : usizeOfIsize s.memoryPointer < s.memory.length)
    (h2 : s.memory.getD (usizeOfIsize s.memoryPointer) 0 ≠ 0) :
    stepMultiplyMove changes s =
      (match mmApply (s.memory.getD (usizeOfIsize s.memoryPointer) 0) changes s with
      | .ok s' => .ok { s' with memory := s'.memory.set (usizeOfIsize s'.memoryPointer) 0 }
      | r => r) := by
  simp only [stepMultiplyMove]
  rw [if_pos (by simpa using h1), if_neg (by simpa using h2)]

lemma runLoop_panic (fuel : Nat) (lbody : List AstNode) (s : MachineState)
    (hf : fuel ≠ 0) (h : s.memory.length ≤ usizeOfIsize s.memoryPointer) :
    runLoop fuel lbody s = .panicked s := by
  rw [runLoop_step fuel lbody s hf]
  rw [if_neg (by omega)]

lemma runLoop_exit (fuel : Nat) (lbody : List AstNode) (s : MachineState)
    (hf : fuel ≠ 0) (h1 : usizeOfIsize s.memoryPointer < s.memory.length)
    (h2 : s.memory.getD (usizeOfIsize s.memoryPointer) 0 = 0) :
    runLoop fuel lbody s = .ok s := by
  rw [runLoop_step fuel lbody s hf, if_pos h1, if_pos h2]

lemma runLoop_iter (fuel : Nat) (lbody : List AstNode) (s : MachineState)
    (hf : fuel ≠ 0) (h1 : usizeOfIsize s.memoryPointer < s.memory.length)
    (h2 : s.memory.getD (usizeOfIsize s.memoryPointer) 0 ≠ 0) :
    runLoop fuel lbody s =
      (match runBody (fuel - 1) lbody s with
      | .ok s' => runLoop (fuel - 1) lbody s'
      | r => r) := by
  rw [runLoop_step fuel lbody s hf, if_pos h1, if_neg h2]

/-! Run invariants: a single relation `Ev s r` collecting everything the
claims need about how a (partial) run evolves a machine state, proved for
`runBody`/`runStep`/`runLoop` by one mutual induction on fuel. -/

lemma noErrOut_nil : NoErrOut [] := by
  intro m hm
  cases hm

lemma evFuelOut (s : MachineState) : Ev s .fuelOut := by
  refine ⟨?_, ?_, ?_, ?_, ?_, ?_, ?_⟩ <;> intros <;> simp_all [RunResult.stateOf]

lemma evOkSelf (s : MachineState) : Ev s (.ok s) := by
  refine ⟨?_, ?_, ?_, ?_, ?_, ?_, ?_⟩
  · intro s' h
    simp [RunResult.stateOf] at h
    subst h
    exact ⟨rfl, rfl, rfl, rfl⟩
  · intro s' h hg
    cases h
    exact hg
  · intro hb _ s' h
    cases h
    exact hb
  · intro _ _ s' h
    cases h
  · intro s' h
    rcases h with h | h | h
    · cases h
      exact ⟨[], by simp, noErrOut_nil⟩
    · cases h
    · cases h
  · intro e s' h
    cases h
  · intro s' h
    cases h

lemma evPanickedSelf (s : MachineState) : Ev s (.panicked s) := by
  refine ⟨?_, ?_, ?_, ?_, ?_, ?_, ?_⟩
  · intro s' h
    simp [RunResult.stateOf] at h
    subst h
    exact ⟨rfl, rfl, rfl, rfl⟩
  · intro s' h
    cases h
  · intro _ _ s' h
    cases h
  · intro _ _ s' h
    cases h
  · intro s' h
    rcases h with h | h | h
    · cases h
    · cases h
      exact ⟨[], by simp, noErrOut_nil⟩
    · cases h
  · intro e s' h
    cases h
  · intro s' h
    cases h

lemma evBlockedSelf (s : MachineState) (hin : s.inputs = []) : Ev s (.blocked s) := by
  refine ⟨?_, ?_, ?_, ?_, ?_, ?_, ?_⟩
  · intro s' h
    simp [RunResult.stateOf] at h
    subst h
    exact ⟨rfl, rfl, rfl, rfl⟩
  · intro s' h
    cases h
  · intro _ _ s' h
    cases h
  · intro _ _ s' h
    cases h
  · intro s' h
    rcases h with h | h | h
    · cases h
    · cases h
    · cases h
      exact ⟨[], by simp, noErrOut_nil⟩
  · intro e s' h
    cases h
  · intro s' h
    cases h
    exact hin

lemma evFaultWith (s : MachineState) (e : RunTimeError)
    (he : e ≠ .MaxIterationsExceeded) : Ev s (faultWith s e) := by
  unfold faultWith
  by_cases hc : s.outputClosed
  · rw [if_pos hc]
    exact evPanickedSelf s
  · rw [if_neg hc]
    refine ⟨?_, ?_, ?_, ?_, ?_, ?_, ?_⟩
    · intro s' h
      simp [RunResult.stateOf] at h
      subst h
      exact ⟨rfl, rfl, rfl, rfl⟩
    · intro s' h
      cases h
    · intro _ _ s' h
      cases h
    · intro _ _ s' h
      cases h
      exact absurd rfl he
    · intro s' h
      rcases h with h | h | h <;> cases h
    · intro e' s' h
      cases h
      exact ⟨[], by simp, noErrOut_nil⟩
    · intro s' h
      cases h

lemma evSeq {s s2 : MachineState} {r : RunResult}
    (h1 : Ev s (.ok s2)) (h2 : Ev s2 r) : Ev s r := by
  obtain ⟨hmax, hlen, hic, hoc⟩ := h1.frame s2 (by simp [RunResult.stateOf])
  refine ⟨?_, ?_, ?_, ?_, ?_, ?_, ?_⟩
  · intro s' h
    obtain ⟨a, b, c, d⟩ := h2.frame s' h
    exact ⟨a.trans hmax, b.trans hlen, c.trans hic, d.trans hoc⟩
  · intro s' h hg
    exact h2.mpOk s' h (h1.mpOk s2 rfl hg)
  · intro hb hmb s' h
    have hb2 : s2.iterations ≤ s2.maxIterations := by
      rw [hmax]
      exact h1.iterOk hb hmb s2 rfl
    have hmb2 : s2.maxIterations < 2 ^ 64 - 1 := by
      rw [hmax]
      exact hmb
    have := h2.iterOk hb2 hmb2 s' h
    omega
  · intro hb hmb s' h
    have hb2 : s2.iterations ≤ s2.maxIterations := by
      rw [hmax]
      exact h1.iterOk hb hmb s2 rfl
    have hmb2 : s2.maxIterations < 2 ^ 64 - 1 := by
      rw [hmax]
      exact hmb
    have := h2.iterMax hb2 hmb2 s' h
    omega
  · intro s' h
    obtain ⟨t1, ht1, hn1⟩ := h1.outSafe s2 (Or.inl rfl)
    obtain ⟨t2, ht2, hn2⟩ := h2.outSafe s' h
    refine ⟨t1 ++ t2, ?_, ?_⟩
    · rw [ht2, ht1, List.append_assoc]
    · intro m hm
      rcases List.mem_append.mp hm with hm | hm
      · exact hn1 m hm
      · exact hn2 m hm
  · intro e s' h
    obtain ⟨t1, ht1, hn1⟩ := h1.outSafe s2 (Or.inl rfl)
    obtain ⟨t2, ht2, hn2⟩ := h2.outFault e s' h
    refine ⟨t1 ++ t2, ?_, ?_⟩
    · rw [ht2, ht1]
      simp [List.append_assoc]
    · intro m hm
      rcases List.mem_append.mp hm with hm | hm
      · exact hn1 m hm
      · exact hn2 m hm
  · intro s' h
    exact h2.blockedNil s' h

lemma evBump {s : MachineState} {r : RunResult}
    (hbud : wrapU64 (s.iterations + 1) ≤ s.maxIterations)
    (h : Ev { s with iterations := wrapU64 (s.iterations + 1) } r) : Ev s r := by
  refine ⟨?_, ?_, ?_, ?_, ?_, ?_, ?_⟩
  · intro s' hs
    obtain ⟨a, b, c, d⟩ := h.frame s' hs
    simp at a b c d
    exact ⟨a, b, c, d⟩
  · intro s' hs hg
    exact h.mpOk s' hs hg
  · intro hb hmb s' hs
    have hw : wrapU64 (s.iterations + 1) = s.iterations + 1 := by
      unfold wrapU64
      omega
    have hb2 : ({ s with iterations := wrapU64 (s.iterations + 1) } : MachineState).iterations ≤
        ({ s with iterations := wrapU64 (s.iterations + 1) } : MachineState).maxIterations := by
      simp [hw]
      omega
    have hmb2 : ({ s with iterations := wrapU64 (s.iterations + 1) } :
        MachineState).maxIterations < 2 ^ 64 - 1 := by
      simpa using hmb
    have := h.iterOk hb2 hmb2 s' hs
    simpa using this
  · intro hb hmb s' hs
    have hw : wrapU64 (s.iterations + 1) = s.iterations + 1 := by
      unfold wrapU64
      omega
    have hb2 : ({ s with iterations := wrapU64 (s.iterations + 1) } : MachineState).iterations ≤
        ({ s with iterations := wrapU64 (s.iterations + 1) } : MachineState).maxIterations := by
      simp [hw]
      omega
    have hmb2 : ({ s with iterations := wrapU64 (s.iterations + 1) } :
        MachineState).maxIterations < 2 ^ 64 - 1 := by
      simpa using hmb
    have := h.iterMax hb2 hmb2 s' hs
    simpa using this
  · intro s' hs
    simpa using h.outSafe s' hs
  · intro e s' hs
    simpa using h.outFault e s' hs
  · intro s' hs
    exact h.blockedNil s' hs

/-- A state change that only touches `memoryPointer` is invisible to `Ev`
as long as the result is not an `ok` (so the cursor-invariant field is
vacuous). -/
lemma evOfMpChange {s : MachineState} {m : Int} {r : RunResult}
    (h : Ev { s with memoryPointer := m } r) (hok : ∀ s', r ≠ .ok s') : Ev s r := by
  refine ⟨?_, ?_, ?_, ?_, ?_, ?_, ?_⟩
  · intro s' hs
    obtain ⟨a, b, c, d⟩ := h.frame s' hs
    simp at a b c d
    exact ⟨a, b, c, d⟩
  · intro s' hs
    exact absurd hs (hok s')
  · intro hb hmb s' hs
    exact absurd hs (hok s')
  · intro hb hmb s' hs
    have := h.iterMax (by simpa using hb) (by simpa using hmb) s' hs
    simpa using this
  · intro s' hs
    simpa using h.outSafe s' hs
  · intro e s' hs
    simpa using h.outFault e s' hs
  · intro s' hs
    exact h.blockedNil s' hs

/-- Extending an `ok` result by overwriting one memory cell preserves `Ev`. -/
lemma evOkSetMem {s s' : MachineState} (k b : Nat)
    (h : Ev s (.ok s')) : Ev s (.ok { s' with memory := s'.memory.set k b }) := by
  refine ⟨?_, ?_, ?_, ?_, ?_, ?_, ?_⟩
  · intro s2 hs
    simp [RunResult.stateOf] at hs
    subst hs
    obtain ⟨a, b2, c, d⟩ := h.frame s' (by simp [RunResult.stateOf])
    simp [List.length_set]
    exact ⟨a, b2, c, d⟩
  · intro s2 hs hg
    cases hs
    have hg' := h.mpOk s' rfl hg
    unfold goodMP at hg' ⊢
    simpa [List.length_set] using hg'
  · intro hb hmb s2 hs
    cases hs
    simpa using h.iterOk hb hmb s' rfl
  · intro hb hmb s2 hs
    cases hs
  · intro s2 hs
    rcases hs with hs | hs | hs
    · cases hs
      simpa using h.outSafe s' (Or.inl rfl)
    · cases hs
    · cases hs
  · intro e s2 hs
    cases hs
  · intro s2 hs
    cases hs

/-! Builders for `Ev` at explicitly-given results, and `Ev` for every
instruction arm. -/

lemma evOkOf {s s' : MachineState}
    (hmax : s'.maxIterations = s.maxIterations) (hlen : s'.memory.length = s.memory.length)
    (hic : s'.inputClosed = s.inputClosed) (hoc : s'.outputClosed = s.outputClosed)
    (hit : s'.iterations = s.iterations)
    (hout : ∃ t, s'.outputs = s.outputs ++ t ∧ NoErrOut t)
    (hmp : goodMP s → goodMP s') : Ev s (.ok s') := by
  refine ⟨?_, ?_, ?_, ?_, ?_, ?_, ?_⟩
  · intro s2 h
    simp [RunResult.stateOf] at h
    subst h
    exact ⟨hmax, hlen, hic, hoc⟩
  · intro s2 h hg
    cases h
    exact hmp hg
  · intro hb _ s2 h
    cases h
    omega
  · intro _ _ s2 h
    cases h
  · intro s2 h
    rcases h with h | h | h
    · cases h
      exact hout
    · cases h
    · cases h
  · intro e s2 h
    cases h
  · intro s2 h
    cases h

lemma evPanickedOf {s s' : MachineState}
    (hmax : s'.maxIterations = s.maxIterations) (hlen : s'.memory.length = s.memory.length)
    (hic : s'.inputClosed = s.inputClosed) (hoc : s'.outputClosed = s.outputClosed)
    (hout : ∃ t, s'.outputs = s.outputs ++ t ∧ NoErrOut t) : Ev s (.panicked s') := by
  refine ⟨?_, ?_, ?_, ?_, ?_, ?_, ?_⟩
  · intro s2 h
    simp [RunResult.stateOf] at h
    subst h
    exact ⟨hmax, hlen, hic, hoc⟩
  · intro s2 h
    cases h
  · intro _ _ s2 h
    cases h
  · intro _ _ s2 h
    cases h
  · intro s2 h
    rcases h with h | h | h
    · cases h
    · cases h
      exact hout
    · cases h
  · intro e s2 h
    cases h
  · intro s2 h
    cases h

lemma evFaultOf {s s' : MachineState} {e : RunTimeError}
    (hmax : s'.maxIterations = s.maxIterations) (hlen : s'.memory.length = s.memory.length)
    (hic : s'.inputClosed = s.inputClosed) (hoc : s'.outputClosed = s.outputClosed)
    (hiterMax : e = .MaxIterationsExceeded → s.iterations ≤ s.maxIterations →
      s.maxIterations < 2 ^ 64 - 1 → s'.iterations = s.maxIterations + 1)
    (hout : ∃ t, s'.outputs = s.outputs ++ t ++ [Except.error e] ∧ NoErrOut t) :
    Ev s (.fault e s') := by
  refine ⟨?_, ?_, ?_, ?_, ?_, ?_, ?_⟩
  · intro s2 h
    simp [RunResult.stateOf] at h
    subst h
    exact ⟨hmax, hlen, hic, hoc⟩
  · intro s2 h
    cases h
  · intro _ _ s2 h
    cases h
  · intro hb hmb s2 h
    cases h
    exact hiterMax rfl hb hmb
  · intro s2 h
    rcases h with h | h | h <;> cases h
  · intro e2 s2 h
    cases h
    exact hout
  · intro s2 h
    cases h

lemma faultWith_ne_ok (s : MachineState) (e : RunTimeError) :
    ∀ s', faultWith s e ≠ .ok s' := by
  intro s'
  unfold faultWith
  split <;> simp

lemma effAddr_error_cases {mp o : Int} {len : Nat} {e : RunTimeError}
    (h : effAddr mp o len = .error e) :
    e = .OutOfBoundsLeft ∨ e = .OutOfBoundsRight := by
  unfold effAddr at h
  cases hca : checkedAdd mp o with
  | none =>
    rw [hca] at h
    simp at h
    exact Or.inr h.symm
  | some idx =>
    rw [hca] at h
    simp only [] at h
    split_ifs at h with h1 h2
    · simp at h
      exact Or.inl h.symm
    · simp at h
      exact Or.inr h.symm

lemma evStepIncrement (a o : Int) (s : MachineState) : Ev s (stepIncrement a o s) := by
  cases heff : effAddr s.memoryPointer o s.memory.length with
  | error e =>
    rw [stepIncrement_fault a o s e heff]
    refine evFaultWith s e ?_
    rcases effAddr_error_cases heff with h | h <;> simp [h]
  | ok idx =>
    rw [stepIncrement_ok a o s idx heff]
    exact evOkSetMem _ _ (evOkSelf s)

lemma evStepSet (a o : Int) (s : MachineState) : Ev s (stepSet a o s) := by
  cases heff : effAddr s.memoryPointer o s.memory.length with
  | error e =>
    rw [stepSet_fault a o s e heff]
    refine evFaultWith s e ?_
    rcases effAddr_error_cases heff with h | h <;> simp [h]
  | ok idx =>
    rw [stepSet_ok a o s idx heff]
    exact evOkSetMem _ _ (evOkSelf s)

lemma evStepPointerIncrement (a : Int) (s : MachineState) :
    Ev s (stepPointerIncrement a s) := by
  by_cases hneg : wrapIsize (s.memoryPointer + a) < 0
  · rw [stepPointerIncrement_left a s hneg]
    exact evOfMpChange (evFaultWith _ .OutOfBoundsLeft (by simp)) (faultWith_ne_ok _ _)
  · by_cases hr : s.memory.length < (wrapIsize (s.memoryPointer + a)).natAbs
    · rw [stepPointerIncrement_right a s (by omega) hr]
      exact evOfMpChange (evFaultWith _ .OutOfBoundsRight (by simp)) (faultWith_ne_ok _ _)
    · rw [stepPointerIncrement_ok a s (by omega) (by omega)]
      refine evOkOf (by simp) (by simp) (by simp) (by simp) (by simp)
        ⟨[], by simp, noErrOut_nil⟩ ?_
      intro hg
      refine ⟨by simp; omega, by simp; omega⟩

lemma evStepRead (s : MachineState) : Ev s (stepRead s) := by
  cases hin : s.inputs with
  | nil =>
    by_cases hc : s.inputClosed
    · rw [stepRead_empty_closed s hin hc]
      exact evPanickedSelf s
    · rw [stepRead_empty_open s hin (by simpa using hc)]
      exact evBlockedSelf s hin
  | cons b rest =>
    by_cases hidx : usizeOfIsize s.memoryPointer < s.memory.length
    · rw [stepRead_cons_ok s b rest hin hidx]
      refine evOkOf (by simp) (by simp [List.length_set]) (by simp) (by simp) (by simp)
        ⟨[], by simp, noErrOut_nil⟩ ?_
      intro hg
      unfold goodMP at hg ⊢
      simpa [List.length_set] using hg
    · rw [stepRead_cons_panic s b rest hin (by omega)]
      exact evPanickedOf (by simp) (by simp) (by simp) (by simp)
        ⟨[], by simp, noErrOut_nil⟩

lemma evStepWrite (s : MachineState) : Ev s (stepWrite s) := by
  by_cases hidx : usizeOfIsize s.memoryPointer < s.memory.length
  · by_cases hc : s.outputClosed
    · rw [stepWrite_panic_closed s hidx hc]
      exact evPanickedSelf s
    · rw [stepWrite_ok s hidx (by simpa using hc)]
      refine evOkOf (by simp) (by simp) (by simp) (by simp) (by simp) ?_ (fun hg => hg)
      refine ⟨[.ok (s.memory.getD (usizeOfIsize s.memoryPointer) 0)], by simp, ?_⟩
      intro m hm
      simp at hm
      exact ⟨_, hm⟩
  · rw [stepWrite_panic_oob s (by omega)]
    exact evPanickedSelf s

lemma evMmApply (cur : Nat) (chs : List (Int × Int)) :
    ∀ s : MachineState, Ev s (mmApply cur chs s) := by
  induction chs with
  | nil =>
    intro s
    exact evOkSelf s
  | cons p rest ih =>
    intro s
    obtain ⟨o, f⟩ := p
    cases heff : effAddr s.memoryPointer o s.memory.length with
    | error e =>
      have hrw : mmApply cur ((o, f) :: rest) s = faultWith s e := by
        simp only [mmApply, heff]
      rw [hrw]
      refine evFaultWith s e ?_
      rcases effAddr_error_cases heff with h | h <;> simp [h]
    | ok idx =>
      have hrw : mmApply cur ((o, f) :: rest) s = mmApply cur rest
          { s with memory :=
              (s.memory.set idx (w8add (s.memory.getD idx 0) (w8mul cur (i8ToByte f)))) } := by
        simp only [mmApply, heff]
      rw [hrw]
      exact evSeq (evOkSetMem _ _ (evOkSelf s)) (ih _)

lemma evStepMultiplyMove (chs : List (Int × Int)) (s : MachineState) :
    Ev s (stepMultiplyMove chs s) := by
  by_cases hidx : usizeOfIsize s.memoryPointer < s.memory.length
  · by_cases hz : s.memory.getD (usizeOfIsize s.memoryPointer) 0 = 0
    · rw [stepMultiplyMove_zero chs s hidx hz]
      exact evOkSelf s
    · rw [stepMultiplyMove_go chs s hidx hz]
      have hev := evMmApply (s.memory.getD (usizeOfIsize s.memoryPointer) 0) chs s
      cases hmm : mmApply (s.memory.getD (usizeOfIsize s.memoryPointer) 0) chs s with
      | ok s' =>
        rw [hmm] at hev
        exact evOkSetMem _ _ hev
      | fault e s' =>
        rw [hmm] at hev
        exact hev
      | panicked s' =>
        rw [hmm] at hev
        exact hev
      | blocked s' =>
        rw [hmm] at hev
        exact hev
      | fuelOut =>
        rw [hmm] at hev
        exact hev
  · rw [stepMultiplyMove_panic chs s (by omega)]
    exact evPanickedSelf s

lemma evRunStepAux (fuel : Nat)
    (hLoop : ∀ lb s, Ev s (runLoop fuel lb s)) (i : AstNode) (s : MachineState) :
    Ev s (runStep fuel i s) := by
  by_cases hbud : s.maxIterations < wrapU64 (s.iterations + 1)
  · rw [runStep_budget fuel i s hbud]
    unfold faultWith
    by_cases hc : ({ s with iterations := wrapU64 (s.iterations + 1) } :
        MachineState).outputClosed
    · rw [if_pos hc]
      exact evPanickedOf (by simp) (by simp) (by simp) (by simp)
        ⟨[], by simp, noErrOut_nil⟩
    · rw [if_neg hc]
      refine evFaultOf (by simp) (by simp) (by simp) (by simp) ?_
        ⟨[], by simp, noErrOut_nil⟩
      intro _ hb hmb
      simp
      unfold wrapU64 at hbud ⊢
      omega
  · have hle : wrapU64 (s.iterations + 1) ≤ s.maxIterations := by omega
    cases i with
    | Increment a o =>
      rw [runStep_increment fuel a o s hle]
      exact evBump hle (evStepIncrement a o _)
    | PointerIncrement a =>
      rw [runStep_pointerIncrement fuel a s hle]
      exact evBump hle (evStepPointerIncrement a _)
    | Read =>
      rw [runStep_read fuel s hle]
      exact evBump hle (evStepRead _)
    | Write =>
      rw [runStep_write fuel s hle]
      exact evBump hle (evStepWrite _)
    | Loop lb =>
      rw [runStep_loop fuel lb s hle]
      exact evBump hle (hLoop lb _)
    | Set a o =>
      rw [runStep_set fuel a o s hle]
      exact evBump hle (evStepSet a o _)
    | MultiplyMove chs =>
      rw [runStep_multiplyMove fuel chs s hle]
      exact evBump hle (evStepMultiplyMove chs _)

/-- The master invariant: every run of the engine evolves the state
according to `Ev`. -/
lemma evRun : ∀ fuel : Nat,
    (∀ lb s, Ev s (runLoop fuel lb s)) ∧
    (∀ i s, Ev s (runStep fuel i s)) ∧
    (∀ b s, Ev s (runBody fuel b s)) := by
  intro fuel
  induction fuel with
  | zero =>
    have hLoop : ∀ lb s, Ev s (runLoop 0 lb s) := by
      intro lb s
      rw [runLoop_zero]
      exact evFuelOut s
    refine ⟨hLoop, ?_, ?_⟩
    · intro i s
      exact evRunStepAux 0 hLoop i s
    · intro b s
      rw [runBody_zero]
      exact evFuelOut s
  | succ n ih =>
    obtain ⟨ihLoop, ihStep, ihBody⟩ := ih
    have hLoop : ∀ lb s, Ev s (runLoop (n + 1) lb s) := by
      intro lb s
      by_cases hidx : usizeOfIsize s.memoryPointer < s.memory.length
      · by_cases hz : s.memory.getD (usizeOfIsize s.memoryPointer) 0 = 0
        · rw [runLoop_exit (n + 1) lb s (by omega) hidx hz]
          exact evOkSelf s
        · rw [runLoop_iter (n + 1) lb s (by omega) hidx hz]
          simp only [Nat.add_sub_cancel]
          have hev := ihBody lb s
          cases hr : runBody n lb s with
          | ok s' =>
            rw [hr] at hev
            exact evSeq hev (ihLoop lb s')
          | fault e s' =>
            rw [hr] at hev
            exact hev
          | panicked s' =>
            rw [hr] at hev
            exact hev
          | blocked s' =>
            rw [hr] at hev
            exact hev
          | fuelOut =>
            exact evFuelOut s
      · rw [runLoop_panic (n + 1) lb s (by omega) (by omega)]
        exact evPanickedSelf s
    have hStep : ∀ i s, Ev s (runStep (n + 1) i s) := fun i s => evRunStepAux (n + 1) hLoop i s
    refine ⟨hLoop, hStep, ?_⟩
    intro b s
    cases b with
    | nil =>
      rw [runBody_nil _ _ (by omega)]
      exact evOkSelf s
    | cons i rest =>
      rw [runBody_cons _ i rest s (by omega)]
      simp only [Nat.add_sub_cancel]
      have hev := ihStep i s
      cases hr : runStep n i s with
      | ok s2 =>
        rw [hr] at hev
        exact evSeq hev (ihBody rest s2)
      | fault e s2 =>
        rw [hr] at hev
        exact hev
      | panicked s2 =>
        rw [hr] at hev
        exact hev
      | blocked s2 =>
        rw [hr] at hev
        exact hev
      | fuelOut =>
        exact evFuelOut s

lemma evRunBody (fuel : Nat) (b : List AstNode) (s : MachineState) :
    Ev s (runBody fuel b s) :=
  (evRun fuel).2.2 b s

/-! Composed unfolding lemmas: one `for`-loop pass of `run_body`, given the
outcome of the dispatched instruction. -/

lemma runBody_cons_ok (fuel : Nat) (i : AstNode) (rest : List AstNode) (s s2 : MachineState)
    (hf : fuel ≠ 0) (h : runStep (fuel - 1) i s = .ok s2) :
    runBody fuel (i :: rest) s = runBody (fuel - 1) rest s2 := by
  rw [runBody_cons fuel i rest s hf, h]

lemma runBody_cons_fault (fuel : Nat) (i : AstNode) (rest : List AstNode)
    (e : RunTimeError) (s s2 : MachineState)
    (hf : fuel ≠ 0) (h : runStep (fuel - 1) i s = .fault e s2) :
    runBody fuel (i :: rest) s = .fault e s2 := by
  rw [runBody_cons fuel i rest s hf, h]

lemma runBody_cons_panicked (fuel : Nat) (i : AstNode) (rest : List AstNode)
    (s s2 : MachineState)
    (hf : fuel ≠ 0) (h : runStep (fuel - 1) i s = .panicked s2) :
    runBody fuel (i :: rest) s = .panicked s2 := by
  rw [runBody_cons fuel i rest s hf, h]

lemma runBody_cons_blocked (fuel : Nat) (i : AstNode) (rest : List AstNode)
    (s s2 : MachineState)
    (hf : fuel ≠ 0) (h : runStep (fuel - 1) i s = .blocked s2) :
    runBody fuel (i :: rest) s = .blocked s2 := by
  rw [runBody_cons fuel i rest s hf, h]

/-! Characterisation of the effective-address computation (used for the
`Increment`/`Set`/`MultiplyMove` bounds claims).  The hypotheses delimit
the values that actually occur: the cursor is never negative when these
arms run (the run invariant), the offset is an `isize`, and a Rust `Vec`
never holds more than `isize::MAX` elements. -/
lemma effAddr_spec (mp offset : Int) (len : Nat)
    (hmp0 : 0 ≤ mp) (hmp1 : mp ≤ isizeMax)
    (ho1 : isizeMin ≤ offset) (ho2 : offset ≤ isizeMax)
    (hlen : (len : Int) ≤ isizeMax) :
    (effAddr mp offset len = .error .OutOfBoundsLeft ↔ mp + offset < 0) ∧
    (effAddr mp offset len = .error .OutOfBoundsRight ↔
      (isizeMax < mp + offset ∨ (0 ≤ mp + offset ∧ (len : Int) ≤ mp + offset))) ∧
    (∀ i : Nat, effAddr mp offset len = .ok i ↔
      (0 ≤ mp + offset ∧ mp + offset < (len : Int) ∧ (i : Int) = mp + offset)) := by
  have hmin : isizeMin ≤ mp + offset := by
    unfold isizeMin at ho1 ⊢
    omega
  unfold effAddr checkedAdd
  by_cases hca : isizeMin ≤ mp + offset ∧ mp + offset ≤ isizeMax
  · rw [if_pos hca]
    simp only []
    by_cases hneg : mp + offset < 0
    · rw [if_pos hneg]
      refine ⟨by simp [hneg], ?_, ?_⟩
      · simp only [Except.error.injEq]
        constructor
        · intro h
          cases h
        · intro h
          exfalso
          rcases h with h | h
          · omega
          · omega
      · intro i
        constructor
        · intro h
          cases h
        · intro h
          exfalso
          omega
    · rw [if_neg hneg]
      by_cases hl : len ≤ (mp + offset).toNat
      · rw [if_pos hl]
        refine ⟨?_, ?_, ?_⟩
        · simp only [Except.error.injEq]
          constructor
          · intro h
            cases h
          · intro h
            omega
        · simp only [Except.error.injEq, true_iff]
          right
          omega
        · intro i
          constructor
          · intro h
            cases h
          · intro h
            exfalso
            omega
      · rw [if_neg hl]
        refine ⟨?_, ?_, ?_⟩
        · constructor
          · intro h
            cases h
          · intro h
            omega
        · constructor
          · intro h
            cases h
          · intro h
            exfalso
            rcases h with h | h
            · omega
            · omega
        · intro i
          simp only [Except.ok.injEq]
          constructor
          · intro h
            refine ⟨by omega, by omega, by omega⟩
          · intro h
            omega
  · rw [if_neg hca]
    have hbig : isizeMax < mp + offset := by
      rcases not_and_or.mp hca with h | h
      · exact absurd hmin h
      · omega
    refine ⟨?_, ?_, ?_⟩
    · simp only []
      constructor
      · intro h
        cases h
      · intro h
        exfalso
        unfold isizeMax at hbig
        omega
    · constructor
      · intro _
        left
        exact hbig
      · intro _
        rfl
    · intro i
      constructor
      · intro h
        cases h
      · intro h
        exfalso
        omega

/-! The output-collection loop of the batch entry point. -/

lemma noErrOut_cons {m : Except RunTimeError Nat} {rest : List (Except RunTimeError Nat)}
    (h : NoErrOut (m :: rest)) : (∃ b, m = Except.ok b) ∧ NoErrOut rest := by
  refine ⟨h m (by simp), ?_⟩
  intro x hx
  exact h x (by simp [hx])

lemma collectLoop_noErr (msgs : List (Except RunTimeError Nat)) :
    NoErrOut msgs → ∀ acc, collectLoop msgs acc = .ok (acc ++ msgsBytes msgs) := by
  induction msgs with
  | nil =>
    intro _ acc
    simp [collectLoop, msgsBytes]
  | cons m rest ih =>
    intro h acc
    obtain ⟨⟨b, hb⟩, hrest⟩ := noErrOut_cons h
    subst hb
    rw [show collectLoop (Except.ok b :: rest) acc = collectLoop rest (acc ++ [b]) from rfl]
    rw [ih hrest (acc ++ [b])]
    simp [msgsBytes]

lemma collectLoop_errLast (pre : List (Except RunTimeError Nat)) (e : RunTimeError) :
    NoErrOut pre → ∀ acc,
      collectLoop (pre ++ [Except.error e]) acc = .fault (acc ++ msgsBytes pre) e := by
  induction pre with
  | nil =>
    intro _ acc
    simp [collectLoop, msgsBytes]
  | cons m rest ih =>
    intro h acc
    obtain ⟨⟨b, hb⟩, hrest⟩ := noErrOut_cons h
    subst hb
    rw [show (Except.ok b :: rest) ++ [Except.error e] = Except.ok b :: (rest ++ [Except.error e])
      from rfl]
    rw [show collectLoop (Except.ok b :: (rest ++ [Except.error e])) acc =
      collectLoop (rest ++ [Except.error e]) (acc ++ [b]) from rfl]
    rw [ih hrest (acc ++ [b])]
    simp [msgsBytes]

/-! Wrap-around arithmetic facts about the cell operations. -/

lemma incCell_eq (v : Nat) (a : Int) (hv : v < 256) :
    ((incCell v a : Nat) : Int) = ((v : Int) + a) % 256 := by
  unfold incCell w8sub w8add
  split_ifs with h1 h2
  · omega
  · subst h2
    omega
  · omega

lemma incCell_lt (v : Nat) (a : Int) (hv : v < 256) : incCell v a < 256 := by
  unfold incCell w8sub w8add
  split_ifs with h1 h2
  · omega
  · omega
  · omega

lemma foldl_incCell (ds : List Int) :
    ∀ v : Nat, v < 256 →
      ((List.foldl incCell v ds : Nat) : Int) = ((v : Int) + ds.sum) % 256 := by
  induction ds with
  | nil =>
    intro v hv
    simp
    omega
  | cons d rest ih =>
    intro v hv
    rw [List.foldl_cons]
    rw [ih (incCell v d) (incCell_lt v d hv)]
    have h1 := incCell_eq v d hv
    rw [List.sum_cons]
    omega

lemma i8ToByte_mod (a : Int) : ((i8ToByte a : Nat) : Int) % 256 = a % 256 := by
  unfold i8ToByte w8sub
  split_ifs with h1 h2
  · omega
  · subst h2
    simp
  · omega

lemma i8ToByte_lt (a : Int) (h1 : -128 ≤ a) (h2 : a ≤ 127) : i8ToByte a < 256 := by
  unfold i8ToByte w8sub
  split_ifs with g1 g2
  · omega
  · omega
  · omega

lemma mmCell_eq (t c : Nat) (f : Int) :
    w8add t (w8mul c (i8ToByte f)) = (((t : Int) + (c : Int) * f) % 256).toNat := by
  have hX : ((i8ToByte f : Nat) : Int) % 256 = f % 256 := i8ToByte_mod f
  have hmul : ((c : Int) * ((i8ToByte f : Nat) : Int)) % 256 = ((c : Int) * f) % 256 := by
    conv_lhs => rw [Int.mul_emod]
    rw [hX]
    rw [← Int.mul_emod]
  have key : ((w8add t (w8mul c (i8ToByte f)) : Nat) : Int) = ((t : Int) + (c : Int) * f) % 256 := by
    unfold w8add w8mul
    push_cast
    rw [hmul]
    conv_rhs => rw [Int.add_emod]
    conv_lhs => rw [Int.add_emod]
    rw [Int.emod_emod_of_dvd _ (dvd_refl 256)]
  have := congrArg Int.toNat key
  simpa using this

lemma mmApply_eq_spec (cur : Nat) : ∀ (chs : List (Int × Int)) (s : MachineState),
    mmApply cur chs s = specMMApply cur chs s := by
  intro chs
  induction chs with
  | nil =>
    intro s
    rfl
  | cons p rest ih =>
    intro s
    obtain ⟨o, f⟩ := p
    cases heff : effAddr s.memoryPointer o s.memory.length with
    | error e =>
      simp only [mmApply, specMMApply, heff]
    | ok idx =>
      simp only [mmApply, specMMApply, heff]
      rw [mmCell_eq]
      exact ih _

lemma multiplyMove_eq_spec (chs : List (Int × Int)) (s : MachineState) :
    stepMultiplyMove chs s = specMultiplyMove chs s := by
  unfold stepMultiplyMove specMultiplyMove
  simp only [mmApply_eq_spec]

/-! Concrete runs used by the claims (the engine's real 30000-cell tape,
evaluated symbolically). -/

lemma errOf_faultWith (s : MachineState) (e : RunTimeError) (h : s.outputClosed = false) :
    (faultWith s e).errOf = some e := by
  unfold faultWith
  rw [if_neg (by simp [h])]
  rfl

/-- Read on a closed, empty input conduit: the engine panics. -/
lemma run_read_closed_panics (fuel : Nat) (rest : List AstNode) (s : MachineState)
    (hf : fuel ≠ 0) (hbud : s.iterations < s.maxIterations)
    (hin : s.inputs = []) (hic : s.inputClosed = true) :
    runBody fuel (.Read :: rest) s =
      .panicked { s with iterations := wrapU64 (s.iterations + 1) } := by
  refine runBody_cons_panicked fuel _ rest s _ hf ?_
  rw [runStep_read (fuel - 1) s (by unfold wrapU64; omega)]
  exact stepRead_empty_closed _ (by simpa using hin) (by simpa using hic)

/-- Write with the output consumer gone: the engine panics. -/
lemma run_write_closed_panics (fuel : Nat) (rest : List AstNode) (s : MachineState)
    (hf : fuel ≠ 0) (hbud : s.iterations < s.maxIterations)
    (hidx : usizeOfIsize s.memoryPointer < s.memory.length) (hoc : s.outputClosed = true) :
    runBody fuel (.Write :: rest) s =
      .panicked { s with iterations := wrapU64 (s.iterations + 1) } := by
  refine runBody_cons_panicked fuel _ rest s _ hf ?_
  rw [runStep_write (fuel - 1) s (by unfold wrapU64; omega)]
  exact stepWrite_panic_closed _ (by simpa using hidx) (by simpa using hoc)

/-- Write with the cursor at or past the tape length: the engine panics
(unchecked indexing), it does not fault. -/
lemma run_write_oob_panics (fuel : Nat) (rest : List AstNode) (s : MachineState)
    (hf : fuel ≠ 0) (hbud : s.iterations < s.maxIterations)
    (hidx : s.memory.length ≤ usizeOfIsize s.memoryPointer) :
    runBody fuel (.Write :: rest) s =
      .panicked { s with iterations := wrapU64 (s.iterations + 1) } := by
  refine runBody_cons_panicked fuel _ rest s _ hf ?_
  rw [runStep_write (fuel - 1) s (by unfold wrapU64; omega)]
  exact stepWrite_panic_oob _ (by simpa using hidx)

/-- Budget exhausted: the dispatcher faults `MaxIterationsExceeded` before
performing any effect (tape, cursor and pending input untouched). -/
lemma run_budget_fault (fuel : Nat) (i : AstNode) (rest : List AstNode) (s : MachineState)
    (hf : fuel ≠ 0) (hbud : s.maxIterations ≤ s.iterations)
    (hsm : s.iterations + 1 < 2 ^ 64) (hoc : s.outputClosed = false) :
    runBody fuel (i :: rest) s = .fault .MaxIterationsExceeded
      { s with
        iterations := s.iterations + 1
        outputs := s.outputs ++ [Except.error .MaxIterationsExceeded] } := by
  have hw : wrapU64 (s.iterations + 1) = s.iterations + 1 := by
    unfold wrapU64
    omega
  refine runBody_cons_fault fuel i rest _ s _ hf ?_
  rw [runStep_budget (fuel - 1) i s (by rw [hw]; omega)]
  unfold faultWith
  rw [if_neg (by simp [hoc])]
  rw [hw]

/-- `PointerIncrement 30000` from the initial state completes without
fault and leaves the cursor exactly at the tape length. -/
lemma run_p30000 :
    runBody 3 [.PointerIncrement 30000] (initState 100 []) =
      .ok { initState 100 [] with memoryPointer := 30000, iterations := 1 } := by
  have hs1 : runStep 2 (.PointerIncrement 30000) (initState 100 []) =
      .ok { initState 100 [] with memoryPointer := 30000, iterations := 1 } := by
    rw [runStep_pointerIncrement 2 30000 _ (by simp)]
    have := stepPointerIncrement_ok 30000 { initState 100 [] with iterations := 1 }
      (by decide) (by simp; decide)
    exact this.trans (by rfl)
  rw [runBody_cons_ok 3 _ _ _ _ (by omega) hs1]
  exact runBody_nil 2 _ (by omega)

lemma run_p30000_write :
    runBody 3 [.PointerIncrement 30000, .Write] (initState 100 []) =
      .panicked { initState 100 [] with memoryPointer := 30000, iterations := 2 } := by
  have hs1 : runStep 2 (.PointerIncrement 30000) (initState 100 []) =
      .ok { initState 100 [] with memoryPointer := 30000, iterations := 1 } := by
    rw [runStep_pointerIncrement 2 30000 _ (by simp)]
    have := stepPointerIncrement_ok 30000 { initState 100 [] with iterations := 1 }
      (by decide) (by simp; decide)
    exact this.trans (by rfl)
  rw [runBody_cons_ok 3 _ _ _ _ (by omega) hs1]
  exact run_write_oob_panics 2 [] _ (by omega) (by simp) (by simp; decide)

lemma run_p30000_loop :
    runBody 4 [.PointerIncrement 30000, .Loop []] (initState 100 []) =
      .panicked { initState 100 [] with memoryPointer := 30000, iterations := 2 } := by
  have hs1 : runStep 3 (.PointerIncrement 30000) (initState 100 []) =
      .ok { initState 100 [] with memoryPointer := 30000, iterations := 1 } := by
    rw [runStep_pointerIncrement 3 30000 _ (by simp)]
    have := stepPointerIncrement_ok 30000 { initState 100 [] with iterations := 1 }
      (by decide) (by simp; decide)
    exact this.trans (by rfl)
  rw [runBody_cons_ok 4 _ _ _ _ (by omega) hs1]
  refine runBody_cons_panicked 3 _ [] _ _ (by omega) ?_
  rw [runStep_loop 2 [] _ (by simp)]
  exact runLoop_panic 2 [] _ (by omega) (by simp; decide)

lemma run_p30000_mm :
    runBody 3 [.PointerIncrement 30000, .MultiplyMove [(0, 1)]] (initState 100 []) =
      .panicked { initState 100 [] with memoryPointer := 30000, iterations := 2 } := by
  have hs1 : runStep 2 (.PointerIncrement 30000) (initState 100 []) =
      .ok { initState 100 [] with memoryPointer := 30000, iterations := 1 } := by
    rw [runStep_pointerIncrement 2 30000 _ (by simp)]
    have := stepPointerIncrement_ok 30000 { initState 100 [] with iterations := 1 }
      (by decide) (by simp; decide)
    exact this.trans (by rfl)
  rw [runBody_cons_ok 3 _ _ _ _ (by omega) hs1]
  refine runBody_cons_panicked 2 _ [] _ _ (by omega) ?_
  rw [runStep_multiplyMove 1 [(0, 1)] _ (by simp)]
  exact stepMultiplyMove_panic [(0, 1)] _ (by simp; decide)

lemma run_p30000_read :
    runBody 3 [.PointerIncrement 30000, .Read] (initState 100 [7]) =
      .panicked { initState 100 [7] with
        memoryPointer := 30000
        iterations := 2
        inputs := [] } := by
  have hs1 : runStep 2 (.PointerIncrement 30000) (initState 100 [7]) =
      .ok { initState 100 [7] with memoryPointer := 30000, iterations := 1 } := by
    rw [runStep_pointerIncrement 2 30000 _ (by simp)]
    have := stepPointerIncrement_ok 30000 { initState 100 [7] with iterations := 1 }
      (by decide) (by simp; decide)
    exact this.trans (by rfl)
  rw [runBody_cons_ok 3 _ _ _ _ (by omega) hs1]
  refine runBody_cons_panicked 2 _ [] _ _ (by omega) ?_
  rw [runStep_read 1 _ (by simp)]
  have hp := stepRead_cons_panic
    { initState 100 [7] with memoryPointer := 30000, iterations := 2 }
    7 [] (by simp) (by simp; decide)
  exact hp

/-- Program `++` under budget 1: the first `Increment` is applied, the
second dispatch faults before its effect; the cell holds 1. -/
lemma run_plusplus_budget1 :
    runBody 5 [.Increment 1 0, .Increment 1 0] (initState 1 []) =
      .fault .MaxIterationsExceeded
        { initState 1 [] with
          memory := ((initState 1 []).memory.set 0 (incCell ((initState 1 []).memory.getD 0 0) 1))
          iterations := 2
          outputs := [Except.error .MaxIterationsExceeded] } := by
  have heff : effAddr ({ initState 1 [] with iterations := 1 } : MachineState).memoryPointer 0
      ({ initState 1 [] with iterations := 1 } : MachineState).memory.length = .ok 0 := by
    have hl : ({ initState 1 [] with iterations := 1 } : MachineState).memory.length = 30000 := by
      simp
    rw [hl]
    decide
  have hs1 : runStep 4 (.Increment 1 0) (initState 1 []) =
      .ok { initState 1 [] with
        memory := ((initState 1 []).memory.set 0 (incCell ((initState 1 []).memory.getD 0 0) 1))
        iterations := 1 } := by
    rw [runStep_increment 4 1 0 _ (by simp)]
    exact (stepIncrement_ok 1 0 { initState 1 [] with iterations := 1 } 0 heff).trans (by rfl)
  rw [runBody_cons_ok 5 _ _ _ _ (by omega) hs1]
  exact (run_budget_fault 4 (.Increment 1 0) []
    { initState 1 [] with
      memory := ((initState 1 []).memory.set 0 (incCell ((initState 1 []).memory.getD 0 0) 1))
      iterations := 1 }
    (by omega) (by simp) (by simp) (by simp)).trans (by rfl)

/-- Batch-mode bridge: a completed run returns exactly the ordered bytes
of its output messages, which contain no error. -/
lemma runBF_of_ok (fuel : Nat) (prog : List AstNode) (maxI : Nat) (input : List Nat)
    (s' : MachineState) (h : runBody fuel prog (initState maxI input) = .ok s') :
    NoErrOut s'.outputs ∧ runBF fuel prog maxI input = .ok (msgsBytes s'.outputs) := by
  have hev := evRunBody fuel prog (initState maxI input)
  rw [h] at hev
  obtain ⟨t, ht, hn⟩ := hev.outSafe s' (Or.inl rfl)
  have hout : s'.outputs = t := by simpa using ht
  have hne : NoErrOut s'.outputs := by
    rw [hout]
    exact hn
  refine ⟨hne, ?_⟩
  unfold runBF
  rw [h]
  show collectLoop s'.outputs [] = .ok (msgsBytes s'.outputs)
  rw [collectLoop_noErr s'.outputs hne []]
  simp

/-- Batch-mode bridge: a faulted run's messages are all the produced bytes
followed by exactly one error, and the batch entry point returns those
bytes paired with that fault. -/
lemma runBF_of_fault (fuel : Nat) (prog : List AstNode) (maxI : Nat) (input : List Nat)
    (e : RunTimeError) (s' : MachineState)
    (h : runBody fuel prog (initState maxI input) = .fault e s') :
    ∃ pre, s'.outputs = pre ++ [Except.error e] ∧ NoErrOut pre ∧
      runBF fuel prog maxI input = .fault (msgsBytes pre) e := by
  have hev := evRunBody fuel prog (initState maxI input)
  rw [h] at hev
  obtain ⟨t, ht, hn⟩ := hev.outFault e s' rfl
  have ht' : s'.outputs = t ++ [Except.error e] := by simpa using ht
  refine ⟨t, ht', hn, ?_⟩
  unfold runBF
  rw [h]
  show collectLoop s'.outputs [] = .fault (msgsBytes t) e
  rw [ht', collectLoop_errLast t e hn []]
  simp

/-- In batch mode a `Read` past the supplied input blocks forever. -/
lemma run_read_hangs :
    runBody 2 [.Read] (initState 100 []) = .blocked { initState 100 [] with iterations := 1 } := by
  refine runBody_cons_blocked 2 _ [] _ _ (by omega) ?_
  rw [runStep_read 1 _ (by simp)]
  exact stepRead_empty_open _ (by simp) (by simp)

lemma runBF_read_hangs : runBF 2 [.Read] 100 [] = .hangs := by
  unfold runBF
  rw [run_read_hangs]

/-! The claims. -/

/-- Claim C1, counterexample: with the input conduit permanently closed and
no byte pending, a `Read` makes the run panic — it does not terminate in
`Faulted` with any error kind, and likewise a `Write` whose consumer is
gone panics.  (The `RunTimeError` taxonomy has no I/O-closed kind at all.) -/
theorem read_io_closed_no_fault_cex :
    (runBody 2 [.Read] { initState 100 [] with inputClosed := true }).isPanicked = true ∧
    (runBody 2 [.Read] { initState 100 [] with inputClosed := true }).isFault = false ∧
    (runBody 2 [.Read] { initState 100 [] with inputClosed := true }).errOf = none ∧
    (runBody 2 [.Write] { initState 100 [] with outputClosed := true }).isPanicked = true := by
  have h1 := run_read_closed_panics 2 [] { initState 100 [] with inputClosed := true }
    (by omega) (by simp) (by simp) (by simp)
  have h2 := run_write_closed_panics 2 [] { initState 100 [] with outputClosed := true }
    (by omega) (by simp) (by simp; decide) (by simp)
  rw [h1, h2]
  exact ⟨rfl, rfl, rfl, rfl⟩

/-- Claim C1 (amended): the run's fault taxonomy has exactly the kinds
`OutOfBoundsLeft`, `OutOfBoundsRight` and `MaxIterationsExceeded` — there
is no I/O-closed kind.  When a `Read` finds the input conduit permanently
closed with no byte pending, or a `Write` finds the output conduit's
consumer gone, the engine panics (the `unwrap` on the failed channel
operation) instead of terminating in `Faulted`. -/
theorem closed_conduits_panic :
    (∀ e : RunTimeError,
      e = .OutOfBoundsLeft ∨ e = .OutOfBoundsRight ∨ e = .MaxIterationsExceeded) ∧
    (∀ (fuel : Nat) (rest : List AstNode) (s : MachineState), fuel ≠ 0 →
      s.iterations < s.maxIterations → s.inputs = [] → s.inputClosed = true →
      runBody fuel (.Read :: rest) s =
        .panicked { s with iterations := wrapU64 (s.iterations + 1) }) ∧
    (∀ (fuel : Nat) (rest : List AstNode) (s : MachineState), fuel ≠ 0 →
      s.iterations < s.maxIterations → usizeOfIsize s.memoryPointer < s.memory.length →
      s.outputClosed = true →
      runBody fuel (.Write :: rest) s =
        .panicked { s with iterations := wrapU64 (s.iterations + 1) }) := by
  refine ⟨?_, ?_, ?_⟩
  · intro e
    cases e
    · exact Or.inl rfl
    · exact Or.inr (Or.inl rfl)
    · exact Or.inr (Or.inr rfl)
  · intro fuel rest s hf hb hin hic
    exact run_read_closed_panics fuel rest s hf hb hin hic
  · intro fuel rest s hf hb hidx hoc
    exact run_write_closed_panics fuel rest s hf hb hidx hoc

/-- Witness for the amended C1 theorem at a concrete closed-input state. -/
theorem closed_conduits_panic_w :
    runBody 2 [.Read] { initState 100 [] with inputClosed := true } =
      .panicked { initState 100 [] with inputClosed := true, iterations := 1 } :=
  closed_conduits_panic.2.1 2 [] { initState 100 [] with inputClosed := true }
    (by omega) (by simp) (by simp) (by simp)

/-- Claim C2, counterexample: `PointerIncrement 30000` from the initial
state completes without fault and leaves the cursor equal to the tape
length 30000, violating `cursor < 30000`. -/
theorem cursor_eq_tape_length_cex :
    (runBody 3 [.PointerIncrement 30000] (initState 100 [])).isOk = true ∧
    (RunResult.stateOf (runBody 3 [.PointerIncrement 30000] (initState 100 []))).map
      (fun s => s.memoryPointer) = some 30000 := by
  rw [run_p30000]
  exact ⟨rfl, rfl⟩

/-- Claim C2 (amended): whenever an instruction completes without fault the
cursor satisfies 0 ≤ cursor ≤ 30000 (the cursor may legally equal the
tape length; violations of these bounds fault, per the `PointerIncrement`
characterisation). -/
theorem cursor_bounds_invariant (fuel : Nat) (body : List AstNode) (maxI : Nat)
    (input : List Nat) (s' : MachineState)
    (h : runBody fuel body (initState maxI input) = .ok s') :
    0 ≤ s'.memoryPointer ∧ s'.memoryPointer ≤ 30000 := by
  have hev := evRunBody fuel body (initState maxI input)
  rw [h] at hev
  have hg : goodMP (initState maxI input) := by
    unfold goodMP
    rw [initState_memoryPointer, initState_memory_length]
    norm_num
  have hg' := hev.mpOk s' rfl hg
  obtain ⟨hmax, hlen, _, _⟩ := hev.frame s' (by simp [RunResult.stateOf])
  unfold goodMP at hg'
  have hlen30000 : s'.memory.length = 30000 := by simpa using hlen
  constructor
  · exact hg'.1
  · have := hg'.2
    omega

/-- Witness for the amended C2 theorem at a concrete run. -/
theorem cursor_bounds_invariant_w :
    0 ≤ ({ initState 100 [] with memoryPointer := 30000, iterations := 1 } :
      MachineState).memoryPointer ∧
    ({ initState 100 [] with memoryPointer := 30000, iterations := 1 } :
      MachineState).memoryPointer ≤ 30000 :=
  cursor_bounds_invariant 3 [.PointerIncrement 30000] 100 [] _ run_p30000

/-- Claim C3: the tape accesses of `Write`, `Read`, the `Loop` condition
re-read and `MultiplyMove`'s source-cell read use unchecked indexing: a
cursor equal to the tape length 30000 is reachable without fault, and the
next such access panics (no `RunTimeError` fault is produced). -/
theorem unchecked_access_at_tape_length :
    (∀ (fuel : Nat) (rest : List AstNode) (s : MachineState), fuel ≠ 0 →
      s.iterations < s.maxIterations → s.memory.length ≤ usizeOfIsize s.memoryPointer →
      runBody fuel (.Write :: rest) s =
        .panicked { s with iterations := wrapU64 (s.iterations + 1) }) ∧
    (runBody 3 [.PointerIncrement 30000] (initState 100 [])).isOk = true ∧
    (runBody 3 [.PointerIncrement 30000, .Write] (initState 100 [])).isPanicked = true ∧
    (runBody 3 [.PointerIncrement 30000, .Write] (initState 100 [])).errOf = none ∧
    (runBody 4 [.PointerIncrement 30000, .Loop []] (initState 100 [])).isPanicked = true ∧
    (runBody 3 [.PointerIncrement 30000, .MultiplyMove [(0, 1)]]
      (initState 100 [])).isPanicked = true ∧
    (runBody 3 [.PointerIncrement 30000, .Read] (initState 100 [7])).isPanicked = true := by
  refine ⟨?_, ?_, ?_, ?_, ?_, ?_, ?_⟩
  · intro fuel rest s hf hb hidx
    exact run_write_oob_panics fuel rest s hf hb hidx
  · rw [run_p30000]
    rfl
  · rw [run_p30000_write]
    rfl
  · rw [run_p30000_write]
    rfl
  · rw [run_p30000_loop]
    rfl
  · rw [run_p30000_mm]
    rfl
  · rw [run_p30000_read]
    rfl

/-- Witness for C3's general conjunct at a concrete out-of-range cursor. -/
theorem unchecked_access_at_tape_length_w :
    runBody 3 [.Write] { initState 100 [] with memoryPointer := 30000 } =
      .panicked { initState 100 [] with memoryPointer := 30000, iterations := 1 } :=
  unchecked_access_at_tape_length.1 3 []
    { initState 100 [] with memoryPointer := 30000 }
    (by omega) (by simp) (by simp; decide)

/-- Claim C4: after a `PointerIncrement`, the run faults `OutOfBoundsLeft`
exactly when the new cursor is negative and `OutOfBoundsRight` exactly when
the new cursor's magnitude exceeds the tape length; a cursor exactly equal
to the tape length does not fault at the `PointerIncrement` itself. -/
theorem pointer_increment_bounds (a : Int) (s : MachineState) (hoc : s.outputClosed = false) :
    ((stepPointerIncrement a s).errOf = some .OutOfBoundsLeft ↔
      wrapIsize (s.memoryPointer + a) < 0) ∧
    ((stepPointerIncrement a s).errOf = some .OutOfBoundsRight ↔
      (0 ≤ wrapIsize (s.memoryPointer + a) ∧
        s.memory.length < (wrapIsize (s.memoryPointer + a)).natAbs)) ∧
    (0 ≤ wrapIsize (s.memoryPointer + a) →
      (wrapIsize (s.memoryPointer + a)).natAbs ≤ s.memory.length →
      stepPointerIncrement a s =
        .ok { s with memoryPointer := wrapIsize (s.memoryPointer + a) }) ∧
    (runBody 3 [.PointerIncrement 30000] (initState 100 [])).isOk = true := by
  by_cases h1 : wrapIsize (s.memoryPointer + a) < 0
  · rw [stepPointerIncrement_left a s h1]
    rw [errOf_faultWith _ _ (by simp [hoc])]
    refine ⟨by simp [h1], ?_, ?_, ?_⟩
    · constructor
      · intro h
        simp at h
      · intro h
        exfalso
        omega
    · intro h
      exfalso
      omega
    · rw [run_p30000]
      rfl
  · by_cases h2 : s.memory.length < (wrapIsize (s.memoryPointer + a)).natAbs
    · rw [stepPointerIncrement_right a s (by omega) h2]
      rw [errOf_faultWith _ _ (by simp [hoc])]
      refine ⟨?_, ?_, ?_, ?_⟩
      · constructor
        · intro h
          simp at h
        · intro h
          exfalso
          omega
      · constructor
        · intro _
          exact ⟨by omega, h2⟩
        · intro _
          rfl
      · intro _ hle
        exfalso
        omega
      · rw [run_p30000]
        rfl
    · rw [stepPointerIncrement_ok a s (by omega) (by omega)]
      refine ⟨?_, ?_, ?_, ?_⟩
      · constructor
        · intro h
          simp [RunResult.errOf] at h
        · intro h
          exfalso
          omega
      · constructor
        · intro h
          simp [RunResult.errOf] at h
        · intro h
          exfalso
          omega
      · intro _ _
        rfl
      · rw [run_p30000]
        rfl

/-- Witness for C4 at the two fault kinds and the boundary cursor. -/
theorem pointer_increment_bounds_w :
    (stepPointerIncrement (-1) (initState 100 [])).errOf = some .OutOfBoundsLeft ∧
    (stepPointerIncrement 30001 (initState 100 [])).errOf = some .OutOfBoundsRight ∧
    stepPointerIncrement 30000 (initState 100 []) =
      .ok { initState 100 [] with memoryPointer := 30000 } := by
  refine ⟨?_, ?_, ?_⟩
  · exact (pointer_increment_bounds (-1) (initState 100 []) (by simp)).1.mpr (by decide)
  · refine (pointer_increment_bounds 30001 (initState 100 []) (by simp)).2.1.mpr
      ⟨by decide, ?_⟩
    rw [initState_memory_length]
    decide
  · exact (pointer_increment_bounds 30000 (initState 100 []) (by simp)).2.2.1
      (by decide) (by rw [initState_memory_length]; decide)

/-- Claim C5, counterexample: at budget `u64::MAX = 2^64 - 1` (the
program's default) the wrapping `u64` counter can never exceed the budget:
a dispatch from a state that has already counted `2^64 - 1` iterations
wraps the counter to 0 and executes the instruction normally instead of
faulting, so a run is not limited to B dispatches at this budget. -/
theorem budget_u64max_no_fault_cex :
    (runBody 2 [.Write]
      { initState (2 ^ 64 - 1) [] with iterations := 2 ^ 64 - 1 }).isOk = true ∧
    (runBody 2 [.Write]
      { initState (2 ^ 64 - 1) [] with iterations := 2 ^ 64 - 1 }).errOf = none ∧
    (RunResult.stateOf (runBody 2 [.Write]
      { initState (2 ^ 64 - 1) [] with iterations := 2 ^ 64 - 1 })).map
      (fun s => (s.outputs, s.iterations)) = some ([Except.ok 0], 0) := by
  have hs : runStep 1 .Write
      ({ initState (2 ^ 64 - 1) [] with iterations := 2 ^ 64 - 1 } : MachineState) =
      .ok { initState (2 ^ 64 - 1) [] with
        iterations := 0
        outputs := [Except.ok 0] } := by
    rw [runStep_write 1 _ (by simp [wrapU64])]
    have hw := stepWrite_ok { initState (2 ^ 64 - 1) [] with iterations := 0 }
      (by simp; decide) (by simp)
    exact hw.trans (by rfl)
  have hrun : runBody 2 [.Write]
      ({ initState (2 ^ 64 - 1) [] with iterations := 2 ^ 64 - 1 } : MachineState) =
      .ok { initState (2 ^ 64 - 1) [] with
        iterations := 0
        outputs := [Except.ok 0] } :=
    (runBody_cons_ok 2 _ [] _ _ (by omega) hs).trans (runBody_nil 1 _ (by omega))
  rw [hrun]
  exact ⟨rfl, rfl, rfl⟩

/-- Claim C5 (amended): for every budget B strictly below `u64::MAX`, the
budget check runs before the instruction's effect (the fault state differs
from the pre-state only in the counter and the error message), a run that
completes did at most B dispatches, a `MaxIterationsExceeded` fault
happens exactly at dispatch B+1, and program `++` under budget 1 leaves
the cell holding 1, not 2.  At budget `u64::MAX` the wrapping counter
never exceeds the budget and the check never fires. -/
theorem iteration_budget :
    (∀ (fuel : Nat) (i : AstNode) (rest : List AstNode) (s : MachineState), fuel ≠ 0 →
      s.outputClosed = false → s.maxIterations ≤ s.iterations →
      s.iterations + 1 < 2 ^ 64 →
      runBody fuel (i :: rest) s = .fault .MaxIterationsExceeded
        { s with
          iterations := s.iterations + 1
          outputs := s.outputs ++ [Except.error .MaxIterationsExceeded] }) ∧
    (∀ (fuel : Nat) (body : List AstNode) (maxI : Nat) (input : List Nat)
      (s' : MachineState), maxI < 2 ^ 64 - 1 →
      runBody fuel body (initState maxI input) = .ok s' →
      s'.iterations ≤ maxI) ∧
    (∀ (fuel : Nat) (body : List AstNode) (maxI : Nat) (input : List Nat)
      (s' : MachineState), maxI < 2 ^ 64 - 1 →
      runBody fuel body (initState maxI input) = .fault .MaxIterationsExceeded s' →
      s'.iterations = maxI + 1) ∧
    ((runBody 5 [.Increment 1 0, .Increment 1 0] (initState 1 [])).errOf =
      some .MaxIterationsExceeded) ∧
    ((RunResult.stateOf (runBody 5 [.Increment 1 0, .Increment 1 0] (initState 1 []))).map
      (fun s => s.memory.getD 0 0) = some 1) := by
  refine ⟨?_, ?_, ?_, ?_, ?_⟩
  · intro fuel i rest s hf hoc hbud hsm
    exact run_budget_fault fuel i rest s hf hbud hsm hoc
  · intro fuel body maxI input s' hB h
    have hev := evRunBody fuel body (initState maxI input)
    rw [h] at hev
    have := hev.iterOk (by simp) (by simpa using hB) s' rfl
    simpa using this
  · intro fuel body maxI input s' hB h
    have hev := evRunBody fuel body (initState maxI input)
    rw [h] at hev
    have := hev.iterMax (by simp) (by simpa using hB) s' rfl
    simpa using this
  · rw [run_plusplus_budget1]
    rfl
  · rw [run_plusplus_budget1]
    have hcell : ((initState 1 []).memory.set 0
        (incCell ((initState 1 []).memory.getD 0 0) 1)).getD 0 0 = 1 := by
      rw [getD_set_self (by rw [initState_memory_length]; omega)]
      rw [initState_memory_getD 1 0 0 [] (by omega)]
      decide
    show some (((initState 1 []).memory.set 0
      (incCell ((initState 1 []).memory.getD 0 0) 1)).getD 0 0) = some 1
    rw [hcell]

/-- Witness for C5's budget-fault shape with budget 0 (the very first
dispatch faults, tape and cursor untouched). -/
theorem iteration_budget_w :
    runBody 1 [.Write] (initState 0 []) = .fault .MaxIterationsExceeded
      { initState 0 [] with
        iterations := 1
        outputs := [Except.error .MaxIterationsExceeded] } :=
  iteration_budget.1 1 .Write [] (initState 0 []) (by omega) (by simp) (by simp) (by simp)

/-- Claim C6: `MultiplyMove{changes}` behaves exactly as the spec's
unrolled form — the source cell is read once, nothing happens on zero,
each `(offset, factor)` pair is applied in order with `Increment`'s
bounds rules adding `current * factor` mod 256 (earlier writes visible to
later ones under aliasing), and afterwards the source cell is zeroed.
`specMultiplyMove` is the spec-side definition; the conjuncts demonstrate
order-sensitivity and aliasing on concrete tapes. -/
theorem multiply_move_unrolled :
    (∀ (changes : List (Int × Int)) (s : MachineState),
      stepMultiplyMove changes s = specMultiplyMove changes s) ∧
    stepMultiplyMove [(1, 2), (2, 3)] (mmDemo [5, 0, 0]) = .ok (mmDemo [0, 10, 15]) ∧
    stepMultiplyMove [(0, 1), (1, 1)] (mmDemo [5, 0]) = .ok (mmDemo [0, 5]) ∧
    stepMultiplyMove [(1, 1), (1, 1)] (mmDemo [3, 0]) = .ok (mmDemo [0, 6]) ∧
    stepMultiplyMove [(0, 2)] (mmDemo [5]) = .ok (mmDemo [0]) ∧
    stepMultiplyMove [(1, 2), (2, 3)] (mmDemo [0, 0, 0]) = .ok (mmDemo [0, 0, 0]) := by
  refine ⟨?_, by decide, by decide, by decide, by decide, by decide⟩
  intro changes s
  exact multiplyMove_eq_spec changes s

/-- Claim C7: `Increment` updates the addressed cell to (v + amount) mod
256 with wrap-around, and repeated applications produce (v + Σd) mod 256
independently of grouping. -/
theorem increment_wraparound :
    (∀ (a o : Int) (s : MachineState) (idx : Nat),
      effAddr s.memoryPointer o s.memory.length = .ok idx →
      stepIncrement a o s =
        .ok { s with memory := s.memory.set idx (incCell (s.memory.getD idx 0) a) }) ∧
    (∀ (v : Nat) (a : Int), v < 256 → ((incCell v a : Nat) : Int) = ((v : Int) + a) % 256) ∧
    (∀ (ds : List Int) (v : Nat), v < 256 →
      ((List.foldl incCell v ds : Nat) : Int) = ((v : Int) + ds.sum) % 256) ∧
    (∀ (ds ds' : List Int) (v : Nat), v < 256 → ds.sum = ds'.sum →
      List.foldl incCell v ds = List.foldl incCell v ds') ∧
    incCell 255 2 = 1 ∧ incCell 0 (-1) = 255 := by
  refine ⟨?_, ?_, ?_, ?_, by decide, by decide⟩
  · intro a o s idx h
    exact stepIncrement_ok a o s idx h
  · intro v a hv
    exact incCell_eq v a hv
  · intro ds v hv
    exact foldl_incCell ds v hv
  · intro ds ds' v hv hsum
    have h1 := foldl_incCell ds v hv
    have h2 := foldl_incCell ds' v hv
    rw [hsum] at h1
    have := h1.trans h2.symm
    exact_mod_cast this

/-- Witness for C7 at the spec's own examples. -/
theorem increment_wraparound_w :
    ((incCell 255 2 : Nat) : Int) = ((255 : Int) + 2) % 256 ∧
    ((List.foldl incCell 0 [(-1), 3] : Nat) : Int) = ((0 : Int) + [(-1), 3].sum) % 256 :=
  ⟨increment_wraparound.2.1 255 2 (by omega),
   increment_wraparound.2.2.1 [(-1), 3] 0 (by omega)⟩

/-- Claim C8: the effective address of `Increment` and `Set` is computed
with checked addition; for the cursors that occur in runs (0 ≤ cursor),
the fault is `OutOfBoundsLeft` exactly when the computed address is
negative, and `OutOfBoundsRight` exactly on overflow or when the address
reaches the tape length; the resulting fault is surfaced on the output
conduit. -/
theorem effective_address_checked :
    (∀ (mp offset : Int) (len : Nat), 0 ≤ mp → mp ≤ isizeMax → isizeMin ≤ offset →
      offset ≤ isizeMax → (len : Int) ≤ isizeMax →
      ((effAddr mp offset len = .error .OutOfBoundsLeft ↔ mp + offset < 0) ∧
       (effAddr mp offset len = .error .OutOfBoundsRight ↔
         (isizeMax < mp + offset ∨ (0 ≤ mp + offset ∧ (len : Int) ≤ mp + offset))) ∧
       (∀ i : Nat, effAddr mp offset len = .ok i ↔
         (0 ≤ mp + offset ∧ mp + offset < (len : Int) ∧ (i : Int) = mp + offset)))) ∧
    (∀ (a o : Int) (e : RunTimeError) (s : MachineState), s.outputClosed = false →
      effAddr s.memoryPointer o s.memory.length = .error e →
      (stepIncrement a o s).errOf = some e ∧ (stepSet a o s).errOf = some e) := by
  refine ⟨?_, ?_⟩
  · intro mp offset len h1 h2 h3 h4 h5
    exact effAddr_spec mp offset len h1 h2 h3 h4 h5
  · intro a o e s hoc heff
    constructor
    · rw [stepIncrement_fault a o s e heff]
      exact errOf_faultWith s e hoc
    · rw [stepSet_fault a o s e heff]
      exact errOf_faultWith s e hoc

/-- Witness for C8 at a negative address, an address at the tape length,
and a checked-addition overflow. -/
theorem effective_address_checked_w :
    effAddr 0 (-1) 30000 = .error .OutOfBoundsLeft ∧
    effAddr 29999 1 30000 = .error .OutOfBoundsRight ∧
    effAddr 30000 isizeMax 30000 = .error .OutOfBoundsRight := by
  refine ⟨?_, ?_, ?_⟩
  · exact (effective_address_checked.1 0 (-1) 30000 (by decide) (by decide) (by decide)
      (by decide) (by decide)).1.mpr (by decide)
  · exact (effective_address_checked.1 29999 1 30000 (by decide) (by decide) (by decide)
      (by decide) (by decide)).2.1.mpr (Or.inr ⟨by decide, by decide⟩)
  · exact (effective_address_checked.1 30000 isizeMax 30000 (by decide) (by decide)
      (by decide) (by decide) (by decide)).2.1.mpr (Or.inl (by decide))

/-- Claim C9: the batch entry point returns the full ordered output byte
sequence on a completed run, and the output produced so far paired with
the terminal fault on a faulted run; the fault message sits after every
produced byte in the output conduit. -/
theorem batch_run_output_order (fuel : Nat) (prog : List AstNode) (maxI : Nat)
    (input : List Nat) :
    (∀ s', runBody fuel prog (initState maxI input) = .ok s' →
      NoErrOut s'.outputs ∧ runBF fuel prog maxI input = .ok (msgsBytes s'.outputs)) ∧
    (∀ e s', runBody fuel prog (initState maxI input) = .fault e s' →
      ∃ pre, s'.outputs = pre ++ [Except.error e] ∧ NoErrOut pre ∧
        runBF fuel prog maxI input = .fault (msgsBytes pre) e) :=
  ⟨fun s' h => runBF_of_ok fuel prog maxI input s' h,
   fun e s' h => runBF_of_fault fuel prog maxI input e s' h⟩

/-- Witness for C9: a one-`Write` program returns exactly its produced
byte. -/
theorem batch_run_output_order_w : runBF 2 [.Write] 100 [] = .ok [0] := by
  have hs : runStep 1 .Write (initState 100 []) =
      .ok { initState 100 [] with iterations := 1, outputs := [Except.ok 0] } := by
    rw [runStep_write 1 _ (by simp)]
    have hw := stepWrite_ok { initState 100 [] with iterations := 1 }
      (by simp; decide) (by simp)
    exact hw.trans (by rfl)
  have hrun : runBody 2 [.Write] (initState 100 []) =
      .ok { initState 100 [] with iterations := 1, outputs := [Except.ok 0] } :=
    (runBody_cons_ok 2 _ [] _ _ (by omega) hs).trans (runBody_nil 1 _ (by omega))
  have h := (batch_run_output_order 2 [.Write] 100 []).1 _ hrun
  exact h.2.trans (by rfl)

/-- Claim C10: in batch mode the input sender stays alive, so the input
conduit is never closed; a `Read` dispatched with all supplied bytes
consumed blocks forever (the run neither completes nor faults), and a
blocked run has exhausted its pending input. -/
theorem batch_read_blocks :
    (∀ (maxI : Nat) (input : List Nat), (initState maxI input).inputClosed = false) ∧
    (∀ (fuel : Nat) (body : List AstNode) (s s' : MachineState),
      runBody fuel body s = .blocked s' →
      s'.inputClosed = s.inputClosed ∧ s'.inputs = []) ∧
    runBF 2 [.Read] 100 [] = .hangs := by
  refine ⟨fun maxI input => rfl, ?_, runBF_read_hangs⟩
  intro fuel body s s' h
  have hev := evRunBody fuel body s
  rw [h] at hev
  obtain ⟨_, _, hic, _⟩ := hev.frame s' (by simp [RunResult.stateOf])
  exact ⟨hic, hev.blockedNil s' rfl⟩

/-- Witness for C10's blocked-run conjunct at the concrete hanging read. -/
theorem batch_read_blocks_w :
    ({ initState 100 [] with iterations := 1 } : MachineState).inputClosed =
      (initState 100 []).inputClosed ∧
    ({ initState 100 [] with iterations := 1 } : MachineState).inputs = [] :=
  batch_read_blocks.2.1 2 [.Read] (initState 100 []) _ run_read_hangs

end Bfi
